import Mathlib

/-! # polcompass backend: the survey handlers

A shallow embedding of `models/polcompass.go` (handlers `POST`, `GET` and `First`
of `PolCompassController`) and `models/summary.go` (handler `Summary`) over an
explicit model of the two tables the handlers use, `polcompasses` and
`questions`.

* Go `string` is `String`, `uint` is `Nat`, `int` is `Int` for `Direction` and `Nat`
  for the two counters, which only ever count up from 0 by one per list element.
  Where `int` arithmetic can leave the 64-bit range (the offset of the listing)
  the result is reduced by `wrapInt64`; `float64` results are rounded to
  binary64 by `float64`.
* The database handle `p.DB` becomes an explicit `Store` that the handlers take
  and, for `POST`, return.
* The storage engine reached through gorm is not part of the repository; its
  operations are modelled in the section "Storage engine" below, each with the
  assumption it makes written out: identities are assigned in increasing
  order, the upsert resolves conflicts on (`question`, `polcompass_id`) row by
  row, a non-zero `ID` is inserted as given and rejected when it is taken,
  `Create` on an empty slice reports `gorm.ErrEmptySlice`, and queries without
  an `ORDER BY` return rows in table order.
-/

set_option linter.dupNamespace false

namespace Models

/-! ## Data model (`models/polcompass.go`, lines 18-42) -/

/-- Row of table `questions`: struct `Question`. `ID` is the primary key; the
pair (`Question`, `PolcompassID`) carries the unique index
`idx_polcompass_question`. `ID` has no json tag, so a request body may set it
(key `ID`); `PolcompassID` is tagged `json:"-"` and is never decoded. -/
structure Question where
  ID : Nat
  Question : String
  Affects : String
  Direction : Int
  PolcompassID : Nat
deriving DecidableEq

/-- Row of table `polcompasses`: struct `Polcompass`. Of the embedded
`gorm.Model` only `ID` is kept (the timestamps play no part in the handler).
`Questions` is the has-many association: it is empty in a stored row and is
filled by `Preload` on the read paths. -/
structure Polcompass where
  ID : Nat
  Field1Name : String
  Field2Name : String
  Field1QuestionQty : Nat
  Field2QuestionQty : Nat
  Name : String
  Description : String
  Questions : List Question
deriving DecidableEq

/-- Decoded request body of `POST /polcompass`: struct `PolCompassReq`. -/
structure PolCompassReq where
  Field1Name : String
  Field2Name : String
  Name : String
  Description : String
  Questions : List Question
deriving DecidableEq

/-- What a handler writes with `c.JSON(status, gin.H{"message": message})`. -/
structure Response where
  status : Nat
  message : String
deriving DecidableEq

/-- The constant `http.StatusOK`. -/
def StatusOK : Nat := 200
/-- The constant `http.StatusBadRequest`. -/
def StatusBadRequest : Nat := 400
/-- The constant `http.StatusInternalServerError`. -/
def StatusInternalServerError : Nat := 500

/-! ## Storage engine -/

/-- The two tables behind `p.DB`, each in insertion order. -/
structure Store where
  polcompasses : List Polcompass
  questions : List Question
deriving DecidableEq

/-- The database right after `AutoMigrate`: both tables empty. -/
def Store.empty : Store := ⟨[], []⟩

/-- Errors the engine reports through `result.Error`. -/
inductive StorageError where
  /-- The error `gorm.ErrEmptySlice` ("empty slice found"). -/
  | ErrEmptySlice
  /-- A primary-key violation reported by the database. -/
  | ErrDuplicatedKey
deriving DecidableEq

/-- Modelled from the spec: the identity the storage engine (gorm over the SQL
database, not part of the repository) assigns to a row inserted with a zero
primary key. Section 3: identity is "monotonically assigned by storage"; here
it is one more than the largest identity in the table (nothing in this system
deletes rows). -/
def nextID (ids : List Nat) : Nat :=
  ids.foldr max 0 + 1

/-- Modelled from the spec: `insertSurvey(record) -> id` of section 6, reached
by `p.DB.Create(&newPolCompass)` for a record whose `ID` is zero: the row is
appended with a storage-assigned identity, and the identity is written back
into the record. The insert is taken to succeed: the handler builds the record
itself and the table has no constraint such a record can violate. Returns the
record as written back and the new table. -/
def createPolcompass (rows : List Polcompass) (p : Polcompass) : Polcompass × List Polcompass :=
  let created := { p with ID := nextID (rows.map (fun r => r.ID)) }
  (created, rows ++ [created])

/-- The conflict target of the upsert: columns `question` and `polcompass_id`. -/
def sameKey (q r : Question) : Bool :=
  decide (r.Question = q.Question) && decide (r.PolcompassID = q.PolcompassID)

/-- The `DoUpdates` assignments applied to an existing row `r` that conflicts
with the proposed row `q`: `direction`, `affects` and `polcompass_id` are taken
from the proposed row, every other column (the primary key included) stays. -/
def doUpdates (q r : Question) : Question :=
  { r with Direction := q.Direction, Affects := q.Affects, PolcompassID := q.PolcompassID }

/-- Modelled from the spec: one proposed row of the storage engine's upsert
(section 4.2 step 4), the statement
`INSERT ... ON CONFLICT (question, polcompass_id) DO UPDATE` that lines 124-128
ask gorm for. If a row with the same (question, polcompass_id) exists it is
updated in place. Otherwise the row is inserted: with a storage-assigned
identity when its `ID` is zero, with its own `ID` when that is non-zero, which
the primary key rejects (`none`) if a row already has that identity; the
conflict clause names only the unique index, so it does not absorb a
primary-key violation. -/
def upsertRow (rows : List Question) (q : Question) : Option (List Question) :=
  if rows.any (sameKey q) then
    some (rows.map (fun r => if sameKey q r then doUpdates q r else r))
  else if q.ID = 0 then
    some (rows ++ [{ q with ID := nextID (rows.map (fun r => r.ID)) }])
  else if rows.any (fun r => decide (r.ID = q.ID)) then
    none
  else
    some (rows ++ [q])

/-- Modelled from the spec: the storage engine's batch upsert
`upsertQuestions(batch, conflictKeys, updateColumns)` of section 6, which is
gorm and the SQL database and not part of the repository. The rows are
proposed in batch order, each seeing the effect of the rows before it: the
"for each question" conflict resolution of section 4.2 step 4, which is what
SQLite, the engine of the repository tests, does. (PostgreSQL, the engine
`main.go` opens, instead rejects a statement that would update one row twice;
that variant is not modelled.) -/
def upsertRows : List Question → List Question → Option (List Question)
  | rows, [] => some rows
  | rows, q :: batch =>
    match upsertRow rows q with
    | none => none
    | some rows1 => upsertRows rows1 batch

/-- The call `p.DB.Clauses(clause.OnConflict{...}).Create(&questionsToSave)`.
gorm's `Create` refuses an empty slice: it sets `gorm.ErrEmptySlice` ("empty
slice found") while building the statement and issues no SQL. Otherwise the
batch is one atomic statement: when a row is rejected the table is left as it
was. -/
def upsertQuestions (rows batch : List Question) : Except StorageError (List Question) :=
  if batch.isEmpty then
    .error .ErrEmptySlice
  else
    match upsertRows rows batch with
    | none => .error .ErrDuplicatedKey
    | some rows1 => .ok rows1

/-! ## The handler `PolCompassController.POST` (lines 83-141) -/

/-- Message of the validation failure, lines 106-108. -/
def unknownFieldMessage (affects field1Name field2Name : String) : String :=
  "An unknown field was added in the questions : " ++ affects ++ " fields names are : "
    ++ field1Name ++ " and " ++ field2Name

/-- The first loop, lines 99-112, with the two counters as accumulators. It
returns the counters, or the message of the 400 response at the first question
whose `Affects` is neither name. The assignment `q.ID = 0` on line 111 writes
to the loop variable, a copy of the slice element, so `req.Questions` is left
as decoded; the loop therefore produces nothing but the counters. -/
def countQuestions (field1Name field2Name : String) :
    List Question → Nat → Nat → Except String (Nat × Nat)
  | [], field1QuestionQty, field2QuestionQty => .ok (field1QuestionQty, field2QuestionQty)
  | q :: rest, field1QuestionQty, field2QuestionQty =>
    if q.Affects = field1Name then
      countQuestions field1Name field2Name rest (field1QuestionQty + 1) field2QuestionQty
    else if q.Affects = field2Name then
      countQuestions field1Name field2Name rest field1QuestionQty (field2QuestionQty + 1)
    else
      .error (unknownFieldMessage q.Affects field1Name field2Name)

/-- The record built on line 113. -/
def newPolCompass (req : PolCompassReq) (field1QuestionQty field2QuestionQty : Nat) : Polcompass :=
  { ID := 0, Field1Name := req.Field1Name, Field2Name := req.Field2Name,
    Field1QuestionQty := field1QuestionQty, Field2QuestionQty := field2QuestionQty,
    Name := req.Name, Description := req.Description, Questions := [] }

/-- The second loop, lines 117-122: every submitted question, in order, with
`PolcompassID` set to the identity of the survey row just created. -/
def questionsToSave (req : PolCompassReq) (polcompassID : Nat) : List Question :=
  req.Questions.map (fun q => { q with PolcompassID := polcompassID })

/-- The handler `POST`. `body` is `none` when `json.Decode` rejects the request
body. Returns the response written and the store left behind. The result of
`p.DB.Create(&newPolCompass)` is not inspected by the handler. -/
def POST (db : Store) (body : Option PolCompassReq) : Response × Store :=
  match body with
  | none =>
    (⟨StatusBadRequest,
      "Bad request for polcompass request field1_name string,field2_name string, questions [] "⟩,
     db)
  | some req =>
    match countQuestions req.Field1Name req.Field2Name req.Questions 0 0 with
    | .error message => (⟨StatusBadRequest, message⟩, db)
    | .ok (field1QuestionQty, field2QuestionQty) =>
      let created := createPolcompass db.polcompasses
        (newPolCompass req field1QuestionQty field2QuestionQty)
      match upsertQuestions db.questions (questionsToSave req created.1.ID) with
      | .error _ =>
        (⟨StatusInternalServerError, "Error while saving questions to the database"⟩,
         { db with polcompasses := created.2 })
      | .ok rows =>
        (⟨StatusOK, "Added sucessfully to the database"⟩,
         { polcompasses := created.2, questions := rows })

/-- A sequence of `POST` calls, each on the store the previous one left. -/
def runPOSTs (db : Store) : List (Option PolCompassReq) → Store
  | [] => db
  | body :: rest => runPOSTs (POST db body).2 rest


/-! ## Predicates used in the statements -/

/-- A question whose `Affects` is neither of the two field names. -/
def unknownField (field1Name field2Name : String) (q : Question) : Bool :=
  decide (q.Affects ≠ field1Name) && decide (q.Affects ≠ field2Name)

/-- Every submitted question names one of the two fields of the request. -/
def allFieldsKnown (req : PolCompassReq) : Prop :=
  ∀ q ∈ req.Questions, q.Affects = req.Field1Name ∨ q.Affects = req.Field2Name

instance (req : PolCompassReq) : Decidable (allFieldsKnown req) :=
  inferInstanceAs (Decidable (∀ q ∈ req.Questions, _))

/-- The rows of a `questions` table that carry the pair (text, surveyId). -/
def rowsFor (rows : List Question) (text : String) (polcompassID : Nat) : List Question :=
  rows.filter (fun r => decide (r.Question = text) && decide (r.PolcompassID = polcompassID))

/-- No two rows share the pair (question text, surveyId). -/
def UniqueQuestionKeys (rows : List Question) : Prop :=
  rows.Pairwise (fun q r => ¬ (q.Question = r.Question ∧ q.PolcompassID = r.PolcompassID))

/-- Every question row belongs to a survey row of the store. -/
def Store.QuestionsOwned (db : Store) : Prop :=
  ∀ q ∈ db.questions, ∃ p ∈ db.polcompasses, p.ID = q.PolcompassID

instance (db : Store) : Decidable db.QuestionsOwned :=
  inferInstanceAs (Decidable (∀ q ∈ db.questions, ∃ p ∈ db.polcompasses, _))

/-- The survey row written for a request that passes the first loop, with the
two counters expressed as counts over the submitted list. -/
def surveyRow (db : Store) (req : PolCompassReq) : Polcompass :=
  { newPolCompass req
      (req.Questions.countP (fun q => decide (q.Affects = req.Field1Name)))
      (req.Questions.countP (fun q =>
        decide (q.Affects ≠ req.Field1Name) && decide (q.Affects = req.Field2Name)))
    with ID := nextID (db.polcompasses.map (fun r => r.ID)) }

/-! ## Concrete requests and stores -/

/-- The request of `TestPOST_ValidRequest`. -/
def validRequest : PolCompassReq :=
  { Field1Name := "Economic", Field2Name := "Social", Name := "Test Compass",
    Description := "Test Description",
    Questions := [⟨0, "Economic Question 1", "Economic", 1, 0⟩,
                  ⟨0, "Economic Question 2", "Economic", -1, 0⟩,
                  ⟨0, "Social Question 1", "Social", 1, 0⟩] }

/-- The request of `TestPOST_UnknownField`. -/
def unknownFieldRequest : PolCompassReq :=
  { Field1Name := "Economic", Field2Name := "Social", Name := "Test Compass",
    Description := "Test Description",
    Questions := [⟨0, "Test Question", "Unknown", 1, 0⟩] }

/-- A request with two offending questions after a legal one. -/
def twoUnknownFieldsRequest : PolCompassReq :=
  { Field1Name := "Economic", Field2Name := "Social", Name := "Test Compass",
    Description := "Test Description",
    Questions := [⟨0, "Q1", "Social", 1, 0⟩, ⟨0, "Q2", "First", 1, 0⟩, ⟨0, "Q3", "Second", 1, 0⟩] }

/-- The request of `TestPOST_EmptyQuestions`. -/
def emptyQuestionsRequest : PolCompassReq :=
  { Field1Name := "Economic", Field2Name := "Social", Name := "Empty Compass",
    Description := "No Questions", Questions := [] }

/-- The store that `validRequest` leaves behind when posted to the empty store. -/
def storeAfterValidRequest : Store :=
  { polcompasses := [⟨1, "Economic", "Social", 2, 1, "Test Compass", "Test Description", []⟩],
    questions := [⟨1, "Economic Question 1", "Economic", 1, 1⟩,
                  ⟨2, "Economic Question 2", "Economic", -1, 1⟩,
                  ⟨3, "Social Question 1", "Social", 1, 1⟩] }

/-- A request whose body sets the key `ID` of its question to 1. -/
def requestWithQuestionID : PolCompassReq :=
  { Field1Name := "Left", Field2Name := "Right", Name := "Second Compass",
    Description := "Second Description",
    Questions := [⟨1, "Another Question", "Right", -1, 0⟩] }

/-- A request whose body sets the key `ID` of its question to 7. -/
def requestWithClientID : PolCompassReq :=
  { Field1Name := "Economic", Field2Name := "Social", Name := "Test Compass",
    Description := "Test Description",
    Questions := [⟨7, "Test Question", "Economic", 1, 0⟩] }

/-- A request that submits the text "Q1" twice, with different axis and
direction. -/
def duplicateTextRequest : PolCompassReq :=
  { Field1Name := "Economic", Field2Name := "Social", Name := "Test Compass",
    Description := "Test Description",
    Questions := [⟨0, "Q1", "Economic", 1, 0⟩, ⟨0, "Q2", "Social", 2, 0⟩,
                  ⟨0, "Q1", "Social", -1, 0⟩] }

/-- The store after the first request of `TestQuestionConflictResolution`. -/
def storeAfterFirstCompass : Store :=
  { polcompasses := [⟨1, "Left", "Right", 1, 0, "First Compass", "Testing conflicts", []⟩],
    questions := [⟨1, "Shared Question", "Left", 1, 1⟩] }

/-- The second request of `TestQuestionConflictResolution`. -/
def secondCompassRequest : PolCompassReq :=
  { Field1Name := "Left", Field2Name := "Right", Name := "Second Compass",
    Description := "Testing conflicts resolution",
    Questions := [⟨0, "Shared Question", "Right", -1, 0⟩] }

/-- A request that submits the text "Q1" twice, with different axis and
direction, and whose body sets the key `ID` of the first of them to 1. -/
def duplicateTextTakenIDRequest : PolCompassReq :=
  { Field1Name := "Economic", Field2Name := "Social", Name := "Second Compass",
    Description := "Second Description",
    Questions := [⟨1, "Q1", "Economic", 1, 0⟩, ⟨0, "Q1", "Social", -1, 0⟩] }

/-- A request whose body sets the key `ID` of both its questions to 5. -/
def requestWithRepeatedID : PolCompassReq :=
  { Field1Name := "Left", Field2Name := "Right", Name := "Third Compass",
    Description := "Third Description",
    Questions := [⟨5, "Question A", "Left", 1, 0⟩, ⟨5, "Question B", "Right", 1, 0⟩] }

/-! ## The read handlers (`models/polcompass.go` lines 44-81, `models/summary.go`) -/

/-- What a read handler writes: `c.JSON(status, gin.H{"message": message})` or
`c.JSON(status, value)`. -/
inductive Reply (α : Type) where
  | message (status : Nat) (message : String)
  | json (status : Nat) (value : α)
deriving DecidableEq

/-- The constant `http.StatusNotFound`. -/
def StatusNotFound : Nat := 404

/-- Value of a decimal digit, `none` for any other character. -/
def digitValue (c : Char) : Option Nat :=
  if '0' ≤ c ∧ c ≤ '9' then some (c.toNat - 48) else none

/-- The digits of a decimal numeral read left to right onto an accumulator;
`none` at the first character that is not a digit. -/
def parseDecimal : List Char → Nat → Option Nat
  | [], acc => some acc
  | c :: cs, acc =>
    match digitValue c with
    | none => none
    | some d => parseDecimal cs (acc * 10 + d)

/-- The call `strconv.ParseUint(s, 10, 64)`: a non-empty string of decimal digits
(no sign, no underscore) whose value fits 64 bits; `none` stands for the error
result. -/
def ParseUint (s : String) : Option Nat :=
  match s.toList with
  | [] => none
  | cs =>
    match parseDecimal cs 0 with
    | none => none
    | some n => if n < 2 ^ 64 then some n else none

/-- The call `strconv.Atoi(s)` on a 64-bit platform: an optional sign `+` or
`-`, then at least one decimal digit and nothing else, with a value between
`-2^63` and `2^63 - 1`; `none` stands for the error result. -/
def Atoi (s : String) : Option Int :=
  match s.toList with
  | [] => none
  | '-' :: cs =>
    if cs.isEmpty then none else
    match parseDecimal cs 0 with
    | none => none
    | some n => if n ≤ 2 ^ 63 then some (-(n : Int)) else none
  | '+' :: cs =>
    if cs.isEmpty then none else
    match parseDecimal cs 0 with
    | none => none
    | some n => if n < 2 ^ 63 then some (n : Int) else none
  | cs =>
    match parseDecimal cs 0 with
    | none => none
    | some n => if n < 2 ^ 63 then some (n : Int) else none

/-- The zero value of `Polcompass`, what `var polcompass Polcompass` declares. -/
def zeroPolcompass : Polcompass :=
  { ID := 0, Field1Name := "", Field2Name := "", Field1QuestionQty := 0, Field2QuestionQty := 0,
    Name := "", Description := "", Questions := [] }

/-- The association loaded by `Preload("Questions")` for a survey row with the
given identity: the question rows whose `PolcompassID` is that identity, in
table order. gorm collects the non-zero primary keys of the parents and issues
no query when there is none, so a parent with identity 0 gets no questions. -/
def preloadQuestions (questions : List Question) (polcompassID : Nat) : List Question :=
  if polcompassID = 0 then [] else
    questions.filter (fun q => decide (q.PolcompassID = polcompassID))

/-- The row `First(&polcompass, id)` selects: `WHERE id = ? ORDER BY id LIMIT 1`. -/
def findByID (rows : List Polcompass) (id : Nat) : Option Polcompass :=
  rows.find? (fun r => decide (r.ID = id))

/-- The row `First(&polcompass)` selects: `ORDER BY id LIMIT 1`, the row with the
smallest identity (the earlier row if two rows shared it). -/
def firstByID : List Polcompass → Option Polcompass
  | [] => none
  | r :: rest =>
    match firstByID rest with
    | none => some r
    | some b => if b.ID < r.ID then some b else some r

/-- The handler `GET`, lines 44-70. `id` is the query parameter `id`, `none`
when it is absent. When `First` finds no row it only sets an error on the
result, which the handler does not read: `polcompass` is still the zero value
when it is written. -/
def GET (db : Store) (id : Option String) : Reply Polcompass :=
  match id with
  | none => .message StatusBadRequest "You need to specify an id"
  | some reqID =>
    match ParseUint reqID with
    | none => .message StatusBadRequest "You need to specify an id"
    | some polcompassId =>
      match findByID db.polcompasses polcompassId with
      | none => .json StatusOK zeroPolcompass
      | some row => .json StatusOK { row with Questions := preloadQuestions db.questions row.ID }

/-- The handler `First`, lines 72-81. -/
def First (db : Store) : Reply Polcompass :=
  match firstByID db.polcompasses with
  | none => .message StatusNotFound "PolCompass not found"
  | some row => .json StatusOK { row with Questions := preloadQuestions db.questions row.ID }

/-- Struct `Summary` of `models/summary.go`. -/
structure Summary where
  Name : String
  Description : String
  ID : Nat
deriving DecidableEq

/-- Struct `SummaryResponse` of `models/summary.go`. -/
structure SummaryResponse where
  NumberOfPages : Int
  Summaries : List Summary
deriving DecidableEq

/-- The rows matched by `Where("name != '' and description != ''")`, in table
order. -/
def publishedRows (rows : List Polcompass) : List Polcompass :=
  rows.filter (fun r => decide (r.Name ≠ "") && decide (r.Description ≠ ""))

/-- The columns kept by `Select("id, name, description")`, scanned into `Summary`. -/
def toSummary (r : Polcompass) : Summary :=
  { Name := r.Name, Description := r.Description, ID := r.ID }

/-- Result of an `int` operation on a 64-bit platform: the value reduced into
the range from `-2^63` to `2^63 - 1`. -/
def wrapInt64 (z : Int) : Int :=
  (z + 2 ^ 63) % 2 ^ 64 - 2 ^ 63

/-- Rounding of a rational to the nearest integer, ties to the even one. -/
def roundTiesToEven (q : ℚ) : Int :=
  if q - ⌊q⌋ < 1 / 2 then ⌊q⌋
  else if 1 / 2 < q - ⌊q⌋ then ⌊q⌋ + 1
  else if ⌊q⌋ % 2 = 0 then ⌊q⌋ else ⌊q⌋ + 1

/-- The binary64 value nearest to a non-negative rational `q`, ties to even:
`q` is rounded to 53 significant bits, that is to a multiple of
`2 ^ (e - 52)` where `2 ^ e ≤ q < 2 ^ (e + 1)`. This is the result of a
`float64` conversion or division whose exact value is `q`, for magnitudes in
the normal range (here `q` is 0 or lies between `2^-63` and `2^63`). -/
def float64 (q : ℚ) : ℚ :=
  if q ≤ 0 then 0
  else roundTiesToEven (q / 2 ^ (Int.log 2 q - 52)) * 2 ^ (Int.log 2 q - 52)

/-- Line 73: `int(math.Ceil(float64(num_summaries) / float64(perPageInt)))`.
Both conversions and the division round to binary64; `math.Ceil` and the
conversion back to `int` are exact on the values that arise. -/
def numberOfPages (num_summaries perPageInt : Int) : Int :=
  ⌈float64 (float64 num_summaries / float64 perPageInt)⌉

/-- Lines 69-78, for parameters that passed the checks of lines 25-67. The
listing query has `LIMIT perPageInt` and the offset `(pageInt - 1) * perPageInt`
computed in `int`; gorm writes the `OFFSET` clause only for a positive
offset. The count query counts the same rows without limit or offset. -/
def summaryPage (db : Store) (perPageInt pageInt : Int) : SummaryResponse :=
  let offset := wrapInt64 ((pageInt - 1) * perPageInt)
  let summaries :=
    (((publishedRows db.polcompasses).drop offset.toNat).take perPageInt.toNat).map toSummary
  let num_summaries : Int := (publishedRows db.polcompasses).length
  { NumberOfPages := numberOfPages num_summaries perPageInt, Summaries := summaries }

/-- The handler `Summary` of `models/summary.go`, lines 22-82. `perPage` and
`page` are the query parameters of those names, `none` when absent. -/
def PolCompassController.Summary (db : Store) (perPage page : Option String) : Reply SummaryResponse :=
  match perPage with
  | none => .message StatusBadRequest "Please specify how many items you want to see per page"
  | some perPage =>
    let page := page.getD "1"
    match Atoi perPage with
    | none => .message StatusBadRequest "perPage must be a number"
    | some perPageInt =>
      if perPageInt ≤ 0 then .message StatusBadRequest "perPage must be greater than 0"
      else
        match Atoi page with
        | none => .message StatusBadRequest "page must be a number"
        | some pageInt =>
          if pageInt ≤ 0 then .message StatusBadRequest "page must be greater than 0"
          else .json StatusOK (summaryPage db perPageInt pageInt)

/-- The request of `TestPOST_MissingFieldNames`. -/
def missingFieldNamesRequest : PolCompassReq :=
  { Field1Name := "", Field2Name := "Social", Name := "Test Compass",
    Description := "Test Description",
    Questions := [⟨0, "Test Question", "Social", 1, 0⟩] }

/-- The item lists of pages 1, 2, ..., `NumberOfPages` of the directory, one
after the other, all against the same store. Pages are addressed by the parsed
integers: for accepted parameters the handler answers `summaryPage`. -/
def allPages (db : Store) (perPageInt : Int) : List Summary :=
  (List.range (summaryPage db perPageInt 1).NumberOfPages.toNat).flatMap
    (fun i => (summaryPage db perPageInt ((i : Int) + 1)).Summaries)

/-- A published survey row with identity `i + 1`. -/
def generatedSurvey (i : Nat) : Polcompass :=
  ⟨i + 1, "Economic", "Social", 0, 0, "Compass", "Description", []⟩

/-- A store with `2^53 + 1` published surveys, identities 1 to `2^53 + 1`. -/
def storeAboveTwoPow53 : Store :=
  { polcompasses := (List.range 9007199254740993).map generatedSurvey, questions := [] }

/-- A store with seven published surveys and one unpublished survey (empty
description) among them. -/
def storeWithSevenPublished : Store :=
  { polcompasses :=
      [⟨1, "A", "B", 0, 0, "Compass 1", "First", []⟩,
       ⟨2, "A", "B", 0, 0, "Compass 2", "Second", []⟩,
       ⟨3, "A", "B", 0, 0, "Draft", "", []⟩,
       ⟨4, "A", "B", 0, 0, "Compass 4", "Fourth", []⟩,
       ⟨5, "A", "B", 0, 0, "Compass 5", "Fifth", []⟩,
       ⟨6, "A", "B", 0, 0, "Compass 6", "Sixth", []⟩,
       ⟨7, "A", "B", 0, 0, "Compass 7", "Seventh", []⟩,
       ⟨8, "A", "B", 0, 0, "Compass 8", "Eighth", []⟩],
    questions := [] }

/-! ## The first loop -/

theorem countQuestions_eq (a b : String) (qs : List Question) (n1 n2 : Nat) :
    countQuestions a b qs n1 n2 =
      match qs.find? (unknownField a b) with
      | some x => .error (unknownFieldMessage x.Affects a b)
      | none => .ok (n1 + qs.countP (fun q => decide (q.Affects = a)),
                     n2 + qs.countP (fun q => decide (q.Affects ≠ a) && decide (q.Affects = b))) := by
  induction qs generalizing n1 n2 with
  | nil => simp [countQuestions]
  | cons q rest ih =>
    by_cases h1 : q.Affects = a
    · simp [countQuestions, h1, unknownField, ih, List.find?_cons, Nat.add_assoc, Nat.add_comm 1]
    · by_cases h2 : q.Affects = b
      · have hba : ¬ b = a := fun h => h1 (h2.trans h)
        simp [countQuestions, h2, hba, unknownField, ih, List.find?_cons, Nat.add_assoc,
          Nat.add_comm 1]
      · simp [countQuestions, h1, h2, unknownField, List.find?_cons]

theorem find?_unknownField_eq_none (req : PolCompassReq) (h : allFieldsKnown req) :
    req.Questions.find? (unknownField req.Field1Name req.Field2Name) = none := by
  rw [List.find?_eq_none]
  intro q hq
  rcases h q hq with h1 | h2
  · simp [unknownField, h1]
  · simp [unknownField, h2]

theorem find?_unknownField_isSome (a b : String) (qs : List Question)
    (h : ∃ q ∈ qs, q.Affects ≠ a ∧ q.Affects ≠ b) :
    ∃ pre x post, qs = pre ++ x :: post ∧ (∀ q ∈ pre, q.Affects = a ∨ q.Affects = b) ∧
      (x.Affects ≠ a ∧ x.Affects ≠ b) ∧ qs.find? (unknownField a b) = some x := by
  induction qs with
  | nil => simp at h
  | cons q rest ih =>
    by_cases hq : q.Affects ≠ a ∧ q.Affects ≠ b
    · exact ⟨[], q, rest, rfl, by simp, hq, by simp [List.find?_cons, unknownField, hq.1, hq.2]⟩
    · have hrest : ∃ q ∈ rest, q.Affects ≠ a ∧ q.Affects ≠ b := by
        obtain ⟨y, hy, hy2⟩ := h
        rcases List.mem_cons.mp hy with rfl | hy
        · exact absurd hy2 hq
        · exact ⟨y, hy, hy2⟩
      obtain ⟨pre, x, post, heq, hpre, hx, hfind⟩ := ih hrest
      have hq2 : q.Affects = a ∨ q.Affects = b := by
        by_cases h1 : q.Affects = a
        · exact Or.inl h1
        · exact Or.inr (by_contra fun h2 => hq ⟨h1, h2⟩)
      refine ⟨q :: pre, x, post, by simp [heq], ?_, hx, ?_⟩
      · intro y hy
        rcases List.mem_cons.mp hy with rfl | hy
        · exact hq2
        · exact hpre y hy
      · have : unknownField a b q = false := by
          rcases hq2 with h1 | h2
          · simp [unknownField, h1]
          · simp [unknownField, h2]
        simp [List.find?_cons, this, hfind]

/-! ## The handler, by outcome of the first loop -/

theorem POST_of_unknownField (db : Store) (req : PolCompassReq) (x : Question)
    (h : req.Questions.find? (unknownField req.Field1Name req.Field2Name) = some x) :
    POST db (some req) =
      (⟨StatusBadRequest, unknownFieldMessage x.Affects req.Field1Name req.Field2Name⟩, db) := by
  simp [POST, countQuestions_eq, h]

theorem POST_of_allFieldsKnown (db : Store) (req : PolCompassReq) (h : allFieldsKnown req) :
    POST db (some req) =
      match upsertQuestions db.questions (questionsToSave req (surveyRow db req).ID) with
      | .error _ =>
        (⟨StatusInternalServerError, "Error while saving questions to the database"⟩,
         { db with polcompasses := db.polcompasses ++ [surveyRow db req] })
      | .ok rows =>
        (⟨StatusOK, "Added sucessfully to the database"⟩,
         { polcompasses := db.polcompasses ++ [surveyRow db req], questions := rows }) := by
  simp only [POST, countQuestions_eq, find?_unknownField_eq_none req h, createPolcompass,
    Nat.zero_add, surveyRow]

theorem countP_field1_add_field2 (req : PolCompassReq) (h : allFieldsKnown req) :
    req.Questions.countP (fun q => decide (q.Affects = req.Field1Name)) +
      req.Questions.countP (fun q =>
        decide (q.Affects ≠ req.Field1Name) && decide (q.Affects = req.Field2Name)) =
      req.Questions.length := by
  unfold allFieldsKnown at h
  generalize req.Questions = qs at h
  induction qs with
  | nil => simp
  | cons q rest ih =>
    have hrest := ih (fun y hy => h y (List.mem_cons_of_mem _ hy))
    have hq := h q (List.mem_cons_self _ _)
    by_cases h1 : q.Affects = req.Field1Name
    · simp only [List.countP_cons, h1, decide_True, if_true, List.length_cons, ne_eq,
        not_true_eq_false, decide_False, Bool.false_and, Bool.false_eq_true, if_false] at hrest ⊢
      omega
    · have h2 : q.Affects = req.Field2Name := hq.resolve_left h1
      have hba : ¬ req.Field2Name = req.Field1Name := fun h => h1 (h2.trans h)
      simp only [List.countP_cons, h2, hba, decide_True, decide_False, if_true, if_false,
        List.length_cons, ne_eq, not_false_eq_true, Bool.true_and, Bool.false_eq_true] at hrest ⊢
      omega


/-! ## The repository tests, replayed -/

theorem POST_validRequest :
    POST Store.empty (some validRequest) =
      (⟨StatusOK, "Added sucessfully to the database"⟩, storeAfterValidRequest) := by
  decide

theorem POST_firstCompass :
    POST Store.empty (some ⟨"Left", "Right", "First Compass", "Testing conflicts",
        [⟨0, "Shared Question", "Left", 1, 0⟩]⟩) =
      (⟨StatusOK, "Added sucessfully to the database"⟩, storeAfterFirstCompass) := by
  decide

theorem POST_secondCompass :
    POST storeAfterFirstCompass (some secondCompassRequest) =
      (⟨StatusOK, "Added sucessfully to the database"⟩,
       { polcompasses := storeAfterFirstCompass.polcompasses ++
           [⟨2, "Left", "Right", 0, 1, "Second Compass", "Testing conflicts resolution", []⟩],
         questions := storeAfterFirstCompass.questions ++
           [⟨2, "Shared Question", "Right", -1, 2⟩] }) := by
  decide

/-! ## The storage engine: identities and the upsert -/

theorem lt_nextID (ids : List Nat) (i : Nat) (h : i ∈ ids) : i < nextID ids := by
  unfold nextID
  induction ids with
  | nil => simp at h
  | cons a rest ih =>
    simp only [List.foldr_cons]
    rcases List.mem_cons.mp h with rfl | h
    · omega
    · have := ih h
      omega

theorem sameKey_doUpdates (q r : Question) (t : String) (pid : Nat) (h : sameKey q r = true) :
    (decide ((doUpdates q r).Question = t) && decide ((doUpdates q r).PolcompassID = pid)) =
      (decide (r.Question = t) && decide (r.PolcompassID = pid)) := by
  simp only [sameKey, Bool.and_eq_true, decide_eq_true_eq] at h
  simp [doUpdates, h.2]

theorem upsertRow_rowsFor_other {rows rows1 : List Question} {q : Question} (t : String)
    (pid : Nat) (h : upsertRow rows q = some rows1)
    (hne : ¬ (q.Question = t ∧ q.PolcompassID = pid)) :
    rowsFor rows1 t pid = rowsFor rows t pid := by
  unfold upsertRow at h
  split_ifs at h with h1 h2 h3
  · injection h with h
    subst h
    unfold rowsFor
    rw [List.filter_map]
    have hcongr : ∀ r ∈ rows,
        ((fun r : Question => decide (r.Question = t) && decide (r.PolcompassID = pid)) ∘
          (fun r => if sameKey q r then doUpdates q r else r)) r =
        (decide (r.Question = t) && decide (r.PolcompassID = pid)) := by
      intro r _
      by_cases hk : sameKey q r = true
      · simp only [Function.comp, hk, if_true]
        exact sameKey_doUpdates q r t pid hk
      · simp only [Function.comp, hk, if_false, Bool.false_eq_true]
    rw [List.filter_congr hcongr]
    conv_rhs => rw [← List.map_id (List.filter _ rows)]
    apply List.map_congr_left
    intro r hr
    have hr2 := (List.mem_filter.mp hr).2
    simp only [Bool.and_eq_true, decide_eq_true_eq] at hr2
    have hk : sameKey q r = false := by
      simp only [sameKey, Bool.and_eq_false_imp, decide_eq_true_eq, decide_eq_false_iff_not]
      intro hq hp
      exact hne ⟨hq ▸ hr2.1, hp ▸ hr2.2⟩
    simp [hk]
  · injection h with h
    subst h
    unfold rowsFor
    rw [List.filter_append]
    by_cases hq : q.Question = t
    · have hp : ¬ q.PolcompassID = pid := fun hp => hne ⟨hq, hp⟩
      simp [hq, hp]
    · simp [hq]
  · injection h with h
    subst h
    unfold rowsFor
    rw [List.filter_append]
    by_cases hq : q.Question = t
    · have hp : ¬ q.PolcompassID = pid := fun hp => hne ⟨hq, hp⟩
      simp [hq, hp]
    · simp [hq]

theorem upsertRow_rowsFor_same {rows rows1 : List Question} {q : Question}
    (h : upsertRow rows q = some rows1)
    (hlen : (rowsFor rows q.Question q.PolcompassID).length ≤ 1) :
    ∃ r, rowsFor rows1 q.Question q.PolcompassID = [r] ∧ r.Affects = q.Affects ∧
      r.Direction = q.Direction := by
  have hrows : rowsFor rows q.Question q.PolcompassID = rows.filter (sameKey q) := rfl
  unfold upsertRow at h
  split_ifs at h with h1 h2 h3
  · injection h with h
    subst h
    obtain ⟨x, hx, hxk⟩ := List.any_eq_true.mp h1
    have hmem : x ∈ rows.filter (sameKey q) := List.mem_filter.mpr ⟨hx, hxk⟩
    obtain ⟨r0, hr0⟩ : ∃ r0, rows.filter (sameKey q) = [r0] := by
      rw [hrows] at hlen
      match hf : rows.filter (sameKey q), hlen, hmem with
      | [], _, hmem => simp [hf] at hmem
      | [r0], _, _ => exact ⟨r0, rfl⟩
      | _ :: _ :: _, hlen, _ => simp [hf] at hlen
    refine ⟨doUpdates q r0, ?_, rfl, rfl⟩
    unfold rowsFor
    rw [List.filter_map]
    have hcongr : ∀ r ∈ rows,
        ((fun r : Question => decide (r.Question = q.Question) &&
            decide (r.PolcompassID = q.PolcompassID)) ∘
          (fun r => if sameKey q r then doUpdates q r else r)) r = sameKey q r := by
      intro r _
      by_cases hk : sameKey q r = true
      · simp only [Function.comp, hk, if_true]
        rw [sameKey_doUpdates q r _ _ hk]
        exact hk
      · have hk2 : sameKey q r = false := Bool.eq_false_iff.mpr hk
        simp only [Function.comp, hk2, if_false, Bool.false_eq_true]
        exact hk2
    rw [List.filter_congr hcongr, hr0]
    have : sameKey q r0 = true := by
      have : r0 ∈ rows.filter (sameKey q) := by simp [hr0]
      exact (List.mem_filter.mp this).2
    simp [this]
  · injection h with h
    subst h
    have hnil : rows.filter (sameKey q) = [] := by
      rw [List.filter_eq_nil_iff]
      intro a ha hk
      exact h1 (List.any_eq_true.mpr ⟨a, ha, hk⟩)
    refine ⟨{ q with ID := nextID (rows.map (fun r => r.ID)) }, ?_, rfl, rfl⟩
    show List.filter (sameKey q) (rows ++ [_]) = _
    rw [List.filter_append, hnil]
    simp [sameKey]
  · injection h with h
    subst h
    have hnil : rows.filter (sameKey q) = [] := by
      rw [List.filter_eq_nil_iff]
      intro a ha hk
      exact h1 (List.any_eq_true.mpr ⟨a, ha, hk⟩)
    refine ⟨q, ?_, rfl, rfl⟩
    show List.filter (sameKey q) (rows ++ [_]) = _
    rw [List.filter_append, hnil]
    simp [sameKey]


theorem upsertRow_frame {rows0 acc rows1 : List Question} {q : Question}
    (hfresh : ∀ r ∈ rows0, r.PolcompassID ≠ q.PolcompassID)
    (hacc : ∀ r ∈ acc, r.PolcompassID = q.PolcompassID)
    (h : upsertRow (rows0 ++ acc) q = some rows1) :
    ∃ acc1, rows1 = rows0 ++ acc1 ∧ ∀ r ∈ acc1, r.PolcompassID = q.PolcompassID := by
  unfold upsertRow at h
  split_ifs at h with h1 h2 h3
  · injection h with h
    subst h
    refine ⟨acc.map (fun r => if sameKey q r then doUpdates q r else r), ?_, ?_⟩
    · rw [List.map_append]
      congr 1
      conv_rhs => rw [← List.map_id rows0]
      apply List.map_congr_left
      intro r hr
      have hk : sameKey q r = false := by
        simp only [sameKey, Bool.and_eq_false_imp, decide_eq_true_eq, decide_eq_false_iff_not]
        intro _
        exact hfresh r hr
      simp [hk]
    · intro r hr
      obtain ⟨r0, hr0, rfl⟩ := List.mem_map.mp hr
      by_cases hk : sameKey q r0 = true
      · simp [hk, doUpdates]
      · simp only [hk, if_false, Bool.false_eq_true]
        exact hacc r0 hr0
  · injection h with h
    subst h
    refine ⟨acc ++ [{ q with ID := nextID ((rows0 ++ acc).map (fun r => r.ID)) }],
      by rw [List.append_assoc], ?_⟩
    intro r hr
    rcases List.mem_append.mp hr with hr | hr
    · exact hacc r hr
    · rw [List.mem_singleton.mp hr]
  · injection h with h
    subst h
    refine ⟨acc ++ [q], by rw [List.append_assoc], ?_⟩
    intro r hr
    rcases List.mem_append.mp hr with hr | hr
    · exact hacc r hr
    · rw [List.mem_singleton.mp hr]

theorem upsertRow_unique {rows rows1 : List Question} {q : Question}
    (h : upsertRow rows q = some rows1) (hu : UniqueQuestionKeys rows) :
    UniqueQuestionKeys rows1 := by
  have hnone : ¬ rows.any (sameKey q) = true → ∀ a ∈ rows,
      ¬ (a.Question = q.Question ∧ a.PolcompassID = q.PolcompassID) := by
    intro h1 a ha hk
    exact h1 (List.any_eq_true.mpr ⟨a, ha, by simp [sameKey, hk.1, hk.2]⟩)
  unfold upsertRow at h
  unfold UniqueQuestionKeys at hu ⊢
  split_ifs at h with h1 h2 h3
  · injection h with h
    subst h
    rw [List.pairwise_map]
    refine hu.imp ?_
    intro a b hab
    have hkey : ∀ r : Question,
        (if sameKey q r then doUpdates q r else r).Question = r.Question ∧
        (if sameKey q r then doUpdates q r else r).PolcompassID = r.PolcompassID := by
      intro r
      by_cases hk : sameKey q r = true
      · have hk2 := hk
        simp only [sameKey, Bool.and_eq_true, decide_eq_true_eq] at hk2
        simp [hk, doUpdates, hk2.2]
      · simp [hk]
    rw [(hkey a).1, (hkey a).2, (hkey b).1, (hkey b).2]
    exact hab
  · injection h with h
    subst h
    rw [List.pairwise_append]
    refine ⟨hu, List.pairwise_singleton _ _, ?_⟩
    intro a ha b hb
    rw [List.mem_singleton.mp hb]
    exact hnone h1 a ha
  · injection h with h
    subst h
    rw [List.pairwise_append]
    refine ⟨hu, List.pairwise_singleton _ _, ?_⟩
    intro a ha b hb
    rw [List.mem_singleton.mp hb]
    exact hnone h1 a ha

theorem upsertRows_append (rows l1 l2 : List Question) :
    upsertRows rows (l1 ++ l2) = (upsertRows rows l1).bind (fun rows1 => upsertRows rows1 l2) := by
  induction l1 generalizing rows with
  | nil => simp [upsertRows]
  | cons q rest ih =>
    simp only [List.cons_append, upsertRows]
    cases upsertRow rows q with
    | none => simp
    | some rows1 => simp [ih]

theorem upsertRows_unique {rows rows1 : List Question} (batch : List Question)
    (h : upsertRows rows batch = some rows1) (hu : UniqueQuestionKeys rows) :
    UniqueQuestionKeys rows1 := by
  induction batch generalizing rows with
  | nil =>
    simp only [upsertRows, Option.some.injEq] at h
    exact h ▸ hu
  | cons q rest ih =>
    simp only [upsertRows] at h
    cases hq : upsertRow rows q with
    | none => simp [hq] at h
    | some rows2 =>
      rw [hq] at h
      exact ih h (upsertRow_unique hq hu)

theorem upsertRows_frame (rows0 acc : List Question) {rows1 : List Question} (pid : Nat)
    (batch : List Question)
    (hbatch : ∀ q ∈ batch, q.PolcompassID = pid)
    (hfresh : ∀ r ∈ rows0, r.PolcompassID ≠ pid)
    (hacc : ∀ r ∈ acc, r.PolcompassID = pid)
    (h : upsertRows (rows0 ++ acc) batch = some rows1) :
    ∃ acc1, rows1 = rows0 ++ acc1 ∧ ∀ r ∈ acc1, r.PolcompassID = pid := by
  induction batch generalizing acc with
  | nil =>
    simp only [upsertRows, Option.some.injEq] at h
    exact ⟨acc, h.symm, hacc⟩
  | cons q rest ih =>
    simp only [upsertRows] at h
    have hq := hbatch q (List.mem_cons_self _ _)
    cases hrow : upsertRow (rows0 ++ acc) q with
    | none => simp [hrow] at h
    | some rows2 =>
      rw [hrow] at h
      obtain ⟨acc2, rfl, hacc2⟩ :=
        upsertRow_frame (hq ▸ hfresh) (hq ▸ hacc) hrow
      exact ih acc2 (fun p hp => hbatch p (List.mem_cons_of_mem _ hp)) (hq ▸ hacc2) h

theorem upsertRow_atMostOne {rows rows1 : List Question} {q : Question}
    (h : upsertRow rows q = some rows1)
    (hinv : ∀ t, (rowsFor rows t q.PolcompassID).length ≤ 1) :
    ∀ t, (rowsFor rows1 t q.PolcompassID).length ≤ 1 := by
  intro t
  by_cases ht : q.Question = t
  · obtain ⟨r, hr, -⟩ := upsertRow_rowsFor_same h (hinv q.Question)
    rw [← ht, hr]
    simp
  · rw [upsertRow_rowsFor_other t q.PolcompassID h (fun hh => ht hh.1)]
    exact hinv t

theorem upsertRows_atMostOne {rows rows1 : List Question} (pid : Nat) (batch : List Question)
    (hbatch : ∀ q ∈ batch, q.PolcompassID = pid)
    (h : upsertRows rows batch = some rows1)
    (hinv : ∀ t, (rowsFor rows t pid).length ≤ 1) :
    ∀ t, (rowsFor rows1 t pid).length ≤ 1 := by
  induction batch generalizing rows with
  | nil =>
    simp only [upsertRows, Option.some.injEq] at h
    exact h ▸ hinv
  | cons q rest ih =>
    simp only [upsertRows] at h
    have hq := hbatch q (List.mem_cons_self _ _)
    cases hrow : upsertRow rows q with
    | none => simp [hrow] at h
    | some rows2 =>
      rw [hrow] at h
      exact ih (fun p hp => hbatch p (List.mem_cons_of_mem _ hp)) h
        (hq ▸ upsertRow_atMostOne hrow (hq ▸ hinv))

theorem upsertRows_rowsFor_other {rows rows1 : List Question} (t : String) (pid : Nat)
    (batch : List Question) (hbatch : ∀ q ∈ batch, q.Question ≠ t)
    (h : upsertRows rows batch = some rows1) :
    rowsFor rows1 t pid = rowsFor rows t pid := by
  induction batch generalizing rows with
  | nil =>
    simp only [upsertRows, Option.some.injEq] at h
    rw [h]
  | cons q rest ih =>
    simp only [upsertRows] at h
    cases hrow : upsertRow rows q with
    | none => simp [hrow] at h
    | some rows2 =>
      rw [hrow] at h
      rw [ih (fun p hp => hbatch p (List.mem_cons_of_mem _ hp)) h]
      exact upsertRow_rowsFor_other t pid hrow
        (fun hh => hbatch q (List.mem_cons_self _ _) hh.1)

theorem upsertRows_latest {rows rows1 : List Question} (pid : Nat)
    (pre : List Question) (q : Question) (post : List Question)
    (hbatch : ∀ p ∈ pre ++ q :: post, p.PolcompassID = pid)
    (hpost : ∀ p ∈ post, p.Question ≠ q.Question)
    (hinv : ∀ t, (rowsFor rows t pid).length ≤ 1)
    (h : upsertRows rows (pre ++ q :: post) = some rows1) :
    ∃ r, rowsFor rows1 q.Question pid = [r] ∧ r.Affects = q.Affects ∧
      r.Direction = q.Direction := by
  rw [upsertRows_append] at h
  cases hpre : upsertRows rows pre with
  | none => simp [hpre] at h
  | some rows2 =>
    rw [hpre] at h
    simp only [Option.some_bind, upsertRows] at h
    cases hrow : upsertRow rows2 q with
    | none => simp [hrow] at h
    | some rows3 =>
      rw [hrow] at h
      have hq : q.PolcompassID = pid := hbatch q (by simp)
      have hinv2 := upsertRows_atMostOne pid pre
        (fun p hp => hbatch p (List.mem_append_left _ hp)) hpre hinv
      obtain ⟨r, hr, hra, hrd⟩ := upsertRow_rowsFor_same hrow (hq ▸ hinv2 q.Question)
      refine ⟨r, ?_, hra, hrd⟩
      rw [upsertRows_rowsFor_other q.Question pid post hpost h, ← hq]
      exact hr


theorem upsertRow_isSome_of_ID_zero (rows : List Question) (q : Question) (h : q.ID = 0) :
    ∃ rows1, upsertRow rows q = some rows1 := by
  unfold upsertRow
  split_ifs
  · exact ⟨_, rfl⟩
  · exact ⟨_, rfl⟩

theorem upsertRows_isSome_of_ID_zero (rows batch : List Question)
    (h : ∀ q ∈ batch, q.ID = 0) : ∃ rows1, upsertRows rows batch = some rows1 := by
  induction batch generalizing rows with
  | nil => exact ⟨rows, rfl⟩
  | cons q rest ih =>
    obtain ⟨rows1, h1⟩ := upsertRow_isSome_of_ID_zero rows q (h q (List.mem_cons_self _ _))
    obtain ⟨rows2, h2⟩ := ih rows1 (fun p hp => h p (List.mem_cons_of_mem _ hp))
    exact ⟨rows2, by simp only [upsertRows, h1, h2]⟩

theorem POST_of_no_client_IDs (db : Store) (req : PolCompassReq) (h : allFieldsKnown req)
    (hne : req.Questions ≠ []) (hid : ∀ q ∈ req.Questions, q.ID = 0) :
    ∃ rows, upsertRows db.questions (questionsToSave req (surveyRow db req).ID) = some rows ∧
      POST db (some req) =
        (⟨StatusOK, "Added sucessfully to the database"⟩,
         { polcompasses := db.polcompasses ++ [surveyRow db req], questions := rows }) := by
  have hids : ∀ q ∈ questionsToSave req (surveyRow db req).ID, q.ID = 0 := by
    intro q hq
    obtain ⟨q0, hq0, rfl⟩ := List.mem_map.mp hq
    exact hid q0 hq0
  obtain ⟨rows, hrows⟩ := upsertRows_isSome_of_ID_zero db.questions _ hids
  refine ⟨rows, hrows, ?_⟩
  have hbatch : (questionsToSave req (surveyRow db req).ID).isEmpty = false := by
    cases hq : req.Questions with
    | nil => exact absurd hq hne
    | cons q rest => simp [questionsToSave, hq]
  rw [POST_of_allFieldsKnown db req h]
  simp only [upsertQuestions, hbatch, hrows, Bool.false_eq_true, if_false]

/-! ## Validation (claims C1 to C6) -/

/-- C1: for every store and every request that contains a question whose
`Affects` is neither `Field1Name` nor `Field2Name`, `POST` answers 400 with the
unknown-field message of one of the submitted questions, and both tables are
left exactly as they were. -/
theorem POST_unknown_field_persists_nothing (db : Store) (req : PolCompassReq)
    (h : ∃ q ∈ req.Questions, q.Affects ≠ req.Field1Name ∧ q.Affects ≠ req.Field2Name) :
    (POST db (some req)).1.status = StatusBadRequest ∧
    (∃ q ∈ req.Questions, (POST db (some req)).1.message =
        unknownFieldMessage q.Affects req.Field1Name req.Field2Name) ∧
    (POST db (some req)).2.polcompasses = db.polcompasses ∧
    (POST db (some req)).2.questions = db.questions := by
  obtain ⟨pre, x, post, heq, -, -, hfind⟩ := find?_unknownField_isSome _ _ _ h
  rw [POST_of_unknownField db req x hfind]
  exact ⟨rfl, ⟨x, by simp [heq], rfl⟩, rfl, rfl⟩

theorem POST_unknown_field_persists_nothing_witness :
    (∃ q ∈ unknownFieldRequest.Questions,
      q.Affects ≠ unknownFieldRequest.Field1Name ∧ q.Affects ≠ unknownFieldRequest.Field2Name) ∧
    (POST storeAfterValidRequest (some unknownFieldRequest)).1.status = StatusBadRequest ∧
    (∃ q ∈ unknownFieldRequest.Questions,
      (POST storeAfterValidRequest (some unknownFieldRequest)).1.message =
        unknownFieldMessage q.Affects unknownFieldRequest.Field1Name
          unknownFieldRequest.Field2Name) ∧
    (POST storeAfterValidRequest (some unknownFieldRequest)).2.polcompasses =
      storeAfterValidRequest.polcompasses ∧
    (POST storeAfterValidRequest (some unknownFieldRequest)).2.questions =
      storeAfterValidRequest.questions :=
  ⟨by decide, POST_unknown_field_persists_nothing storeAfterValidRequest unknownFieldRequest
    (by decide)⟩

/-- C2 fails on the code: a request all of whose questions name one of the two
fields, posted to a store that already holds question row 1, is answered 500
and not 200, because the question it submits still carries the `ID` 1 of the
request body when it reaches the upsert (line 111 resets the loop copy only). -/
theorem POST_valid_request_not_always_200 :
    allFieldsKnown requestWithQuestionID ∧
    (POST storeAfterValidRequest (some requestWithQuestionID)).1 =
      ⟨StatusInternalServerError, "Error while saving questions to the database"⟩ ∧
    (POST storeAfterValidRequest (some requestWithQuestionID)).1 ≠
      ⟨StatusOK, "Added sucessfully to the database"⟩ := by
  decide

/-- Away from the two defects (the empty batch and identities taken from the
request body) creation does succeed: for every store and every request with at
least one question, all of whose questions name one of the two fields and
carry `ID` 0, `POST` answers 200 "Added sucessfully to the database" and
inserts a survey row with `Field1QuestionQty + Field2QuestionQty` equal to the
number of submitted questions. -/
theorem POST_valid_request_without_client_IDs (db : Store) (req : PolCompassReq)
    (h : allFieldsKnown req) (hne : req.Questions ≠ [])
    (hid : ∀ q ∈ req.Questions, q.ID = 0) :
    (POST db (some req)).1 = ⟨StatusOK, "Added sucessfully to the database"⟩ ∧
    ∃ row, (POST db (some req)).2.polcompasses = db.polcompasses ++ [row] ∧
      row.Field1QuestionQty + row.Field2QuestionQty = req.Questions.length := by
  obtain ⟨rows, -, hpost⟩ := POST_of_no_client_IDs db req h hne hid
  rw [hpost]
  exact ⟨rfl, surveyRow db req, rfl, countP_field1_add_field2 req h⟩

theorem POST_valid_request_without_client_IDs_witness :
    allFieldsKnown validRequest ∧ validRequest.Questions ≠ [] ∧
    (∀ q ∈ validRequest.Questions, q.ID = 0) ∧
    (POST storeAfterFirstCompass (some validRequest)).1 =
      ⟨StatusOK, "Added sucessfully to the database"⟩ ∧
    ∃ row, (POST storeAfterFirstCompass (some validRequest)).2.polcompasses =
        storeAfterFirstCompass.polcompasses ++ [row] ∧
      row.Field1QuestionQty + row.Field2QuestionQty = validRequest.Questions.length :=
  ⟨by decide, by decide, by decide,
   POST_valid_request_without_client_IDs storeAfterFirstCompass validRequest
    (by decide) (by decide) (by decide)⟩

/-- C3: for every request that passes validation, the survey row `POST`
inserts has `Field1QuestionQty` equal to the number of submitted questions
whose `Affects` is exactly `Field1Name`, and `Field2QuestionQty` equal to the
number whose `Affects` is not `Field1Name` and is exactly `Field2Name`; when
the two names are equal the second count is 0. -/
theorem POST_stored_counts (db : Store) (req : PolCompassReq) (h : allFieldsKnown req) :
    ∃ row, (POST db (some req)).2.polcompasses = db.polcompasses ++ [row] ∧
      row.Field1QuestionQty =
        req.Questions.countP (fun q => decide (q.Affects = req.Field1Name)) ∧
      row.Field2QuestionQty =
        req.Questions.countP (fun q =>
          decide (q.Affects ≠ req.Field1Name) && decide (q.Affects = req.Field2Name)) ∧
      (req.Field1Name = req.Field2Name → row.Field2QuestionQty = 0) := by
  rw [POST_of_allFieldsKnown db req h]
  refine ⟨surveyRow db req, ?_, rfl, rfl, ?_⟩
  · split <;> rfl
  · intro hab
    simp only [surveyRow, newPolCompass, hab]
    rw [List.countP_eq_zero]
    intro q _
    by_cases hq : q.Affects = req.Field2Name <;> simp [hq]

theorem POST_stored_counts_witness :
    allFieldsKnown validRequest ∧
    ∃ row, (POST storeAfterValidRequest (some validRequest)).2.polcompasses =
        storeAfterValidRequest.polcompasses ++ [row] ∧
      row.Field1QuestionQty =
        validRequest.Questions.countP (fun q => decide (q.Affects = validRequest.Field1Name)) ∧
      row.Field2QuestionQty =
        validRequest.Questions.countP (fun q =>
          decide (q.Affects ≠ validRequest.Field1Name) &&
            decide (q.Affects = validRequest.Field2Name)) ∧
      (validRequest.Field1Name = validRequest.Field2Name → row.Field2QuestionQty = 0) :=
  ⟨by decide, POST_stored_counts storeAfterValidRequest validRequest (by decide)⟩

/-- C4: for every request that contains a question whose `Affects` is neither
field name, the question list splits as `pre ++ x :: post` with every question
of `pre` legal and `x` not, and the response is 400 with the message built
from `x.Affects` and the two field names, whatever `post` holds. -/
theorem POST_unknown_field_message_names_first (db : Store) (req : PolCompassReq)
    (h : ∃ q ∈ req.Questions, q.Affects ≠ req.Field1Name ∧ q.Affects ≠ req.Field2Name) :
    ∃ pre x post, req.Questions = pre ++ x :: post ∧
      (∀ q ∈ pre, q.Affects = req.Field1Name ∨ q.Affects = req.Field2Name) ∧
      (x.Affects ≠ req.Field1Name ∧ x.Affects ≠ req.Field2Name) ∧
      (POST db (some req)).1 =
        ⟨StatusBadRequest,
         "An unknown field was added in the questions : " ++ x.Affects ++ " fields names are : "
           ++ req.Field1Name ++ " and " ++ req.Field2Name⟩ := by
  obtain ⟨pre, x, post, heq, hpre, hx, hfind⟩ := find?_unknownField_isSome _ _ _ h
  exact ⟨pre, x, post, heq, hpre, hx, by rw [POST_of_unknownField db req x hfind]; rfl⟩

theorem POST_unknown_field_message_names_first_witness :
    (∃ q ∈ twoUnknownFieldsRequest.Questions,
      q.Affects ≠ twoUnknownFieldsRequest.Field1Name ∧
        q.Affects ≠ twoUnknownFieldsRequest.Field2Name) ∧
    (∃ pre x post, twoUnknownFieldsRequest.Questions = pre ++ x :: post ∧
      (∀ q ∈ pre, q.Affects = twoUnknownFieldsRequest.Field1Name ∨
        q.Affects = twoUnknownFieldsRequest.Field2Name) ∧
      (x.Affects ≠ twoUnknownFieldsRequest.Field1Name ∧
        x.Affects ≠ twoUnknownFieldsRequest.Field2Name) ∧
      (POST Store.empty (some twoUnknownFieldsRequest)).1 =
        ⟨StatusBadRequest,
         "An unknown field was added in the questions : " ++ x.Affects ++ " fields names are : "
           ++ twoUnknownFieldsRequest.Field1Name ++ " and "
           ++ twoUnknownFieldsRequest.Field2Name⟩) ∧
    (POST Store.empty (some twoUnknownFieldsRequest)).1.message =
      "An unknown field was added in the questions : First fields names are : Economic and Social" :=
  ⟨by decide,
   POST_unknown_field_message_names_first Store.empty twoUnknownFieldsRequest (by decide),
   by decide⟩

/-- C5 fails on the code: the request of `TestPOST_EmptyQuestions`, posted to
the empty store, inserts the survey row with counts (0, 0) and no question row,
but the answer is 500 "Error while saving questions to the database", because
`Create` is called on an empty slice. -/
theorem POST_emptyQuestions_answers_500 :
    POST Store.empty (some emptyQuestionsRequest) =
      (⟨StatusInternalServerError, "Error while saving questions to the database"⟩,
       { polcompasses := [⟨1, "Economic", "Social", 0, 0, "Empty Compass", "No Questions", []⟩],
         questions := [] }) := by
  decide

/-- C6 fails on the code: a request whose question carries `ID` 7 reaches the
upsert with `ID` still 7 (and `PolcompassID` set to the new survey, 1), and the
row is stored under the client-chosen identity 7. -/
theorem questionsToSave_keeps_client_ID :
    questionsToSave requestWithClientID 1 = [⟨7, "Test Question", "Economic", 1, 1⟩] ∧
    POST Store.empty (some requestWithClientID) =
      (⟨StatusOK, "Added sucessfully to the database"⟩,
       { polcompasses := [⟨1, "Economic", "Social", 1, 0, "Test Compass", "Test Description", []⟩],
         questions := [⟨7, "Test Question", "Economic", 1, 1⟩] }) := by
  decide


/-! ## The handler over the storage engine -/

theorem POST_ok_inv (db : Store) (req : PolCompassReq)
    (h : (POST db (some req)).1.status = StatusOK) :
    allFieldsKnown req ∧
    ∃ rows, upsertRows db.questions (questionsToSave req (surveyRow db req).ID) = some rows ∧
      POST db (some req) =
        (⟨StatusOK, "Added sucessfully to the database"⟩,
         { polcompasses := db.polcompasses ++ [surveyRow db req], questions := rows }) := by
  by_cases hk : allFieldsKnown req
  · refine ⟨hk, ?_⟩
    rw [POST_of_allFieldsKnown db req hk] at h ⊢
    cases hu : upsertQuestions db.questions (questionsToSave req (surveyRow db req).ID) with
    | error e =>
      rw [hu] at h
      simp [StatusInternalServerError, StatusOK] at h
    | ok rows =>
      refine ⟨rows, ?_, rfl⟩
      unfold upsertQuestions at hu
      split_ifs at hu
      cases hr : upsertRows db.questions (questionsToSave req (surveyRow db req).ID) with
      | none => simp [hr] at hu
      | some rows2 =>
        rw [hr] at hu
        simp only [Except.ok.injEq] at hu
        rw [hu]
  · have hex : ∃ q ∈ req.Questions, q.Affects ≠ req.Field1Name ∧ q.Affects ≠ req.Field2Name := by
      unfold allFieldsKnown at hk
      push_neg at hk
      exact hk
    obtain ⟨pre, x, post, -, -, -, hfind⟩ := find?_unknownField_isSome _ _ _ hex
    rw [POST_of_unknownField db req x hfind] at h
    simp [StatusBadRequest, StatusOK] at h

theorem POST_cases (db : Store) (body : Option PolCompassReq) :
    (POST db body).2 = db ∨
    ∃ req, body = some req ∧
      ((POST db body).2 = { db with polcompasses := db.polcompasses ++ [surveyRow db req] } ∨
       ∃ rows, upsertRows db.questions (questionsToSave req (surveyRow db req).ID) = some rows ∧
         (POST db body).2 =
           { polcompasses := db.polcompasses ++ [surveyRow db req], questions := rows }) := by
  cases body with
  | none => exact Or.inl rfl
  | some req =>
    by_cases hk : allFieldsKnown req
    · refine Or.inr ⟨req, rfl, ?_⟩
      rw [POST_of_allFieldsKnown db req hk]
      cases hu : upsertQuestions db.questions (questionsToSave req (surveyRow db req).ID) with
      | error e => exact Or.inl rfl
      | ok rows =>
        refine Or.inr ⟨rows, ?_, rfl⟩
        unfold upsertQuestions at hu
        split_ifs at hu
        cases hr : upsertRows db.questions (questionsToSave req (surveyRow db req).ID) with
        | none => simp [hr] at hu
        | some rows2 =>
          rw [hr] at hu
          simp only [Except.ok.injEq] at hu
          rw [hu]
    · have hex : ∃ q ∈ req.Questions,
          q.Affects ≠ req.Field1Name ∧ q.Affects ≠ req.Field2Name := by
        unfold allFieldsKnown at hk
        push_neg at hk
        exact hk
      obtain ⟨pre, x, post, -, -, -, hfind⟩ := find?_unknownField_isSome _ _ _ hex
      rw [POST_of_unknownField db req x hfind]
      exact Or.inl rfl

theorem surveyRow_ID_fresh (db : Store) (req : PolCompassReq) (howned : db.QuestionsOwned) :
    (∀ p ∈ db.polcompasses, p.ID ≠ (surveyRow db req).ID) ∧
    (∀ r ∈ db.questions, r.PolcompassID ≠ (surveyRow db req).ID) := by
  have hlt : ∀ p ∈ db.polcompasses, p.ID < (surveyRow db req).ID := fun p hp =>
    lt_nextID _ p.ID (List.mem_map_of_mem _ hp)
  refine ⟨fun p hp => Nat.ne_of_lt (hlt p hp), ?_⟩
  intro r hr
  obtain ⟨p, hp, hpid⟩ := howned r hr
  rw [← hpid]
  exact Nat.ne_of_lt (hlt p hp)

theorem questionsToSave_polcompassID (req : PolCompassReq) (pid : Nat) :
    ∀ q ∈ questionsToSave req pid, q.PolcompassID = pid := by
  intro q hq
  obtain ⟨q0, -, rfl⟩ := List.mem_map.mp hq
  rfl

theorem rowsFor_eq_nil_of_fresh (rows : List Question) (t : String) (pid : Nat)
    (hfresh : ∀ r ∈ rows, r.PolcompassID ≠ pid) : rowsFor rows t pid = [] := by
  unfold rowsFor
  rw [List.filter_eq_nil_iff]
  intro r hr
  simp [hfresh r hr]

theorem POST_questionsOwned (db : Store) (body : Option PolCompassReq)
    (howned : db.QuestionsOwned) : (POST db body).2.QuestionsOwned := by
  rcases POST_cases db body with h | ⟨req, -, h | ⟨rows, hrows, h⟩⟩
  · rw [h]
    exact howned
  · rw [h]
    intro q hq
    obtain ⟨p, hp, hpid⟩ := howned q hq
    exact ⟨p, List.mem_append_left _ hp, hpid⟩
  · rw [h]
    obtain ⟨acc, hacc, hpid⟩ := upsertRows_frame db.questions [] (surveyRow db req).ID _
      (questionsToSave_polcompassID req _) (surveyRow_ID_fresh db req howned).2
      (by simp) (by simpa using hrows)
    intro q hq
    simp only [hacc, List.mem_append] at hq
    rcases hq with hq | hq
    · obtain ⟨p, hp, hpid⟩ := howned q hq
      exact ⟨p, List.mem_append_left _ hp, hpid⟩
    · exact ⟨surveyRow db req, by simp, (hpid q hq).symm⟩

theorem runPOSTs_questionsOwned (bodies : List (Option PolCompassReq)) (db : Store)
    (howned : db.QuestionsOwned) : (runPOSTs db bodies).QuestionsOwned := by
  induction bodies generalizing db with
  | nil => exact howned
  | cons body rest ih => exact ih _ (POST_questionsOwned db body howned)

theorem POST_unique_question_keys (db : Store) (body : Option PolCompassReq)
    (hu : UniqueQuestionKeys db.questions) : UniqueQuestionKeys (POST db body).2.questions := by
  rcases POST_cases db body with h | ⟨req, -, h | ⟨rows, hrows, h⟩⟩
  · rw [h]
    exact hu
  · rw [h]
    exact hu
  · rw [h]
    exact upsertRows_unique _ hrows hu


/-! ## The question upsert (claims C7 to C10) -/

/-- C7 fails on the code: a creation call whose batch submits the text "Q1"
twice with different directions, the first time with the `ID` 1 of the request
body, is posted to a store that already holds question row 1. The batch
reaches the upsert with that `ID` (line 111 resets the loop copy only), the
primary key rejects it, `POST` answers 500 and the store afterwards holds the
new survey row 2 and no question row for the pair ("Q1", 2), where the claim
promises exactly one, carrying "Social" and -1. -/
theorem POST_duplicate_text_with_taken_ID :
    POST storeAfterValidRequest (some duplicateTextTakenIDRequest) =
      (⟨StatusInternalServerError, "Error while saving questions to the database"⟩,
       { polcompasses := storeAfterValidRequest.polcompasses ++
           [⟨2, "Economic", "Social", 1, 1, "Second Compass", "Second Description", []⟩],
         questions := storeAfterValidRequest.questions }) ∧
    rowsFor (POST storeAfterValidRequest (some duplicateTextTakenIDRequest)).2.questions "Q1" 2 =
      [] := by
  decide

/-- Away from that defect the later submission wins: for every store whose
question rows all belong to a survey row, and every request whose questions
all name one of the two fields and carry `ID` 0 and whose batch submits a text
twice, first as `q1` and later, for the last time, as `q2`, with different
directions, `POST` answers 200 and the store afterwards holds exactly one
question row for the pair (that text, the new survey's id), carrying the axis
and direction of `q2`, not the direction of `q1`. (The upsert is modelled row
by row, as the spec states it and as SQLite resolves it.) -/
theorem POST_duplicate_text_keeps_latest (db : Store) (req : PolCompassReq)
    (pre : List Question) (q1 : Question) (mid : List Question) (q2 : Question)
    (post : List Question) (howned : db.QuestionsOwned)
    (hknown : allFieldsKnown req) (hid : ∀ q ∈ req.Questions, q.ID = 0)
    (hbatch : req.Questions = pre ++ q1 :: (mid ++ q2 :: post))
    (htext : q1.Question = q2.Question) (hdir : q1.Direction ≠ q2.Direction)
    (hlast : ∀ p ∈ post, p.Question ≠ q2.Question) :
    (POST db (some req)).1 = ⟨StatusOK, "Added sucessfully to the database"⟩ ∧
    ∃ row r, (POST db (some req)).2.polcompasses = db.polcompasses ++ [row] ∧
      rowsFor (POST db (some req)).2.questions q1.Question row.ID = [r] ∧
      r.Affects = q2.Affects ∧ r.Direction = q2.Direction ∧ r.Direction ≠ q1.Direction := by
  obtain ⟨rows, hrows, hpost⟩ := POST_of_no_client_IDs db req hknown
    (by rw [hbatch]; simp) hid
  rw [hpost]
  refine ⟨rfl, ?_⟩
  have hsave : questionsToSave req (surveyRow db req).ID =
      (questionsToSave ⟨req.Field1Name, req.Field2Name, req.Name, req.Description,
          pre ++ [q1] ++ mid⟩ (surveyRow db req).ID) ++
        { q2 with PolcompassID := (surveyRow db req).ID } ::
        (questionsToSave ⟨req.Field1Name, req.Field2Name, req.Name, req.Description, post⟩
          (surveyRow db req).ID) := by
    simp [questionsToSave, hbatch]
  have hall := questionsToSave_polcompassID req (surveyRow db req).ID
  rw [hsave] at hrows hall
  obtain ⟨r, hr, hra, hrd⟩ := upsertRows_latest (surveyRow db req).ID _ _ _ hall
    (by
      intro p hp
      obtain ⟨p0, hp0, rfl⟩ := List.mem_map.mp hp
      exact hlast p0 hp0)
    (fun t => by
      rw [rowsFor_eq_nil_of_fresh _ _ _ (surveyRow_ID_fresh db req howned).2]
      simp)
    hrows
  refine ⟨surveyRow db req, r, rfl, ?_, hra, hrd, ?_⟩
  · rw [htext]
    exact hr
  · rw [hrd]
    exact fun h => hdir h.symm

theorem POST_duplicate_text_keeps_latest_witness :
    Store.empty.QuestionsOwned ∧ allFieldsKnown duplicateTextRequest ∧
    (∀ q ∈ duplicateTextRequest.Questions, q.ID = 0) ∧
    (POST Store.empty (some duplicateTextRequest)).1 =
      ⟨StatusOK, "Added sucessfully to the database"⟩ ∧
    ∃ row r, (POST Store.empty (some duplicateTextRequest)).2.polcompasses =
        Store.empty.polcompasses ++ [row] ∧
      rowsFor (POST Store.empty (some duplicateTextRequest)).2.questions
        (⟨0, "Q1", "Economic", 1, 0⟩ : Question).Question row.ID = [r] ∧
      r.Affects = (⟨0, "Q1", "Social", -1, 0⟩ : Question).Affects ∧
      r.Direction = (⟨0, "Q1", "Social", -1, 0⟩ : Question).Direction ∧
      r.Direction ≠ (⟨0, "Q1", "Economic", 1, 0⟩ : Question).Direction :=
  ⟨by decide, by decide, by decide,
   POST_duplicate_text_keeps_latest Store.empty duplicateTextRequest []
    ⟨0, "Q1", "Economic", 1, 0⟩ [⟨0, "Q2", "Social", 2, 0⟩] ⟨0, "Q1", "Social", -1, 0⟩ []
    (by decide) (by decide) (by decide) (by decide) (by decide) (by decide) (by decide)⟩

/-- C8: starting from the empty store, after any sequence of creation calls
(undecodable bodies, rejected requests, failed upserts and successful calls
alike) no two question rows share the pair (question text, surveyId). -/
theorem runPOSTs_unique_question_keys (bodies : List (Option PolCompassReq)) :
    UniqueQuestionKeys (runPOSTs Store.empty bodies).questions := by
  have key : ∀ (bodies : List (Option PolCompassReq)) (db : Store),
      UniqueQuestionKeys db.questions → UniqueQuestionKeys (runPOSTs db bodies).questions := by
    intro bodies
    induction bodies with
    | nil => exact fun db hu => hu
    | cons body rest ih => exact fun db hu => ih _ (POST_unique_question_keys db body hu)
  exact key bodies Store.empty List.Pairwise.nil

/-- C9: for every store whose question rows all belong to a survey row, and
every creation call answered 200: the survey table is the old one followed by
one new row whose id no old survey has, the question table is the old one,
unchanged and in place, followed by rows that all carry the new survey's id,
and for every submitted question after which its text is not submitted again
the new survey has exactly one row for that text, among the added rows, with
that question's axis and direction. -/
theorem POST_leaves_existing_rows (db : Store) (req : PolCompassReq)
    (howned : db.QuestionsOwned) (hok : (POST db (some req)).1.status = StatusOK) :
    ∃ row added, (POST db (some req)).2.polcompasses = db.polcompasses ++ [row] ∧
      (∀ p ∈ db.polcompasses, p.ID ≠ row.ID) ∧
      (POST db (some req)).2.questions = db.questions ++ added ∧
      (∀ r ∈ added, r.PolcompassID = row.ID) ∧
      (∀ pre q post, req.Questions = pre ++ q :: post →
        (∀ p ∈ post, p.Question ≠ q.Question) →
        ∃ r, rowsFor (POST db (some req)).2.questions q.Question row.ID = [r] ∧ r ∈ added ∧
          r.Affects = q.Affects ∧ r.Direction = q.Direction) := by
  obtain ⟨-, rows, hrows, hpost⟩ := POST_ok_inv db req hok
  have hfresh := surveyRow_ID_fresh db req howned
  obtain ⟨added, hadded, hpid⟩ := upsertRows_frame db.questions [] (surveyRow db req).ID _
    (questionsToSave_polcompassID req _) hfresh.2 (by simp) (by simpa using hrows)
  rw [hpost]
  refine ⟨surveyRow db req, added, rfl, hfresh.1, hadded, hpid, ?_⟩
  intro pre q post hbatch hlast
  have hsave : questionsToSave req (surveyRow db req).ID =
      (questionsToSave ⟨req.Field1Name, req.Field2Name, req.Name, req.Description, pre⟩
          (surveyRow db req).ID) ++
        { q with PolcompassID := (surveyRow db req).ID } ::
        (questionsToSave ⟨req.Field1Name, req.Field2Name, req.Name, req.Description, post⟩
          (surveyRow db req).ID) := by
    simp [questionsToSave, hbatch]
  have hall := questionsToSave_polcompassID req (surveyRow db req).ID
  rw [hsave] at hrows hall
  obtain ⟨r, hr, hra, hrd⟩ := upsertRows_latest (surveyRow db req).ID _ _ _ hall
    (by
      intro p hp
      obtain ⟨p0, hp0, rfl⟩ := List.mem_map.mp hp
      exact hlast p0 hp0)
    (fun t => by
      rw [rowsFor_eq_nil_of_fresh _ _ _ hfresh.2]
      simp)
    hrows
  refine ⟨r, hr, ?_, hra, hrd⟩
  have hmem : r ∈ rowsFor rows q.Question (surveyRow db req).ID := by
    rw [show rowsFor rows q.Question (surveyRow db req).ID = [r] from hr]
    simp
  have hmem2 := (List.mem_filter.mp hmem)
  have hr_rows : r ∈ db.questions ++ added := hadded ▸ hmem2.1
  rcases List.mem_append.mp hr_rows with hdb | hadd
  · have hpid2 := hmem2.2
    simp only [Bool.and_eq_true, decide_eq_true_eq] at hpid2
    exact absurd hpid2.2 (hfresh.2 r hdb)
  · exact hadd

theorem POST_leaves_existing_rows_witness :
    storeAfterFirstCompass.QuestionsOwned ∧
    (POST storeAfterFirstCompass (some secondCompassRequest)).1.status = StatusOK ∧
    ∃ row added, (POST storeAfterFirstCompass (some secondCompassRequest)).2.polcompasses =
        storeAfterFirstCompass.polcompasses ++ [row] ∧
      (∀ p ∈ storeAfterFirstCompass.polcompasses, p.ID ≠ row.ID) ∧
      (POST storeAfterFirstCompass (some secondCompassRequest)).2.questions =
        storeAfterFirstCompass.questions ++ added ∧
      (∀ r ∈ added, r.PolcompassID = row.ID) ∧
      (∀ pre q post, secondCompassRequest.Questions = pre ++ q :: post →
        (∀ p ∈ post, p.Question ≠ q.Question) →
        ∃ r, rowsFor (POST storeAfterFirstCompass (some secondCompassRequest)).2.questions
            q.Question row.ID = [r] ∧ r ∈ added ∧
          r.Affects = q.Affects ∧ r.Direction = q.Direction) :=
  ⟨by decide, by decide,
   POST_leaves_existing_rows storeAfterFirstCompass secondCompassRequest (by decide) (by decide)⟩

/-- C10: for every store and every request that passes validation, if the
question upsert reports a storage error then `POST` answers 500 "Error while
saving questions to the database", which is not the 400 of a validation
failure, and the store it leaves holds the old survey rows followed by the
survey row of this call, with the question table exactly as before. -/
theorem POST_storage_error_keeps_survey_row (db : Store) (req : PolCompassReq)
    (e : StorageError) (hvalid : allFieldsKnown req)
    (herr : upsertQuestions db.questions
      (questionsToSave req (nextID (db.polcompasses.map (fun r => r.ID)))) = .error e) :
    (POST db (some req)).1 =
      ⟨StatusInternalServerError, "Error while saving questions to the database"⟩ ∧
    (POST db (some req)).1.status ≠ StatusBadRequest ∧
    ∃ row, (POST db (some req)).2.polcompasses = db.polcompasses ++ [row] ∧
      row.ID = nextID (db.polcompasses.map (fun r => r.ID)) ∧
      row.Field1Name = req.Field1Name ∧ row.Field2Name = req.Field2Name ∧
      row.Name = req.Name ∧ row.Description = req.Description ∧
      (POST db (some req)).2.questions = db.questions := by
  rw [POST_of_allFieldsKnown db req hvalid]
  have herr2 : upsertQuestions db.questions (questionsToSave req (surveyRow db req).ID) =
      .error e := herr
  rw [herr2]
  exact ⟨rfl, by simp [StatusInternalServerError, StatusBadRequest], surveyRow db req, rfl, rfl,
    rfl, rfl, rfl, rfl, rfl⟩

theorem POST_storage_error_keeps_survey_row_witness :
    allFieldsKnown requestWithRepeatedID ∧
    upsertQuestions storeAfterFirstCompass.questions
      (questionsToSave requestWithRepeatedID
        (nextID (storeAfterFirstCompass.polcompasses.map (fun r => r.ID)))) =
      .error .ErrDuplicatedKey ∧
    (POST storeAfterFirstCompass (some requestWithRepeatedID)).1 =
      ⟨StatusInternalServerError, "Error while saving questions to the database"⟩ ∧
    (POST storeAfterFirstCompass (some requestWithRepeatedID)).1.status ≠ StatusBadRequest ∧
    ∃ row, (POST storeAfterFirstCompass (some requestWithRepeatedID)).2.polcompasses =
        storeAfterFirstCompass.polcompasses ++ [row] ∧
      row.ID = nextID (storeAfterFirstCompass.polcompasses.map (fun r => r.ID)) ∧
      row.Field1Name = requestWithRepeatedID.Field1Name ∧
      row.Field2Name = requestWithRepeatedID.Field2Name ∧
      row.Name = requestWithRepeatedID.Name ∧
      row.Description = requestWithRepeatedID.Description ∧
      (POST storeAfterFirstCompass (some requestWithRepeatedID)).2.questions =
        storeAfterFirstCompass.questions :=
  ⟨by decide, rfl,
   POST_storage_error_keeps_survey_row storeAfterFirstCompass requestWithRepeatedID
    .ErrDuplicatedKey (by decide) rfl⟩



/-! ## The read paths `GET` and `First` (claims C11 and C12) -/

theorem firstByID_mem (rows : List Polcompass) (row : Polcompass)
    (h : firstByID rows = some row) : row ∈ rows := by
  induction rows generalizing row with
  | nil => simp [firstByID] at h
  | cons r rest ih =>
    simp only [firstByID] at h
    cases hrest : firstByID rest with
    | none =>
      rw [hrest] at h
      simp only [Option.some.injEq] at h
      simp [h]
    | some b =>
      rw [hrest] at h
      simp only at h
      split_ifs at h
      · simp only [Option.some.injEq] at h
        exact List.mem_cons_of_mem _ (ih b (h ▸ hrest) |> fun hb => h ▸ hb)
      · simp only [Option.some.injEq] at h
        simp [h]

theorem firstByID_isSome (rows : List Polcompass) (h : rows ≠ []) :
    ∃ row, firstByID rows = some row := by
  cases rows with
  | nil => exact absurd rfl h
  | cons r rest =>
    simp only [firstByID]
    cases firstByID rest with
    | none => exact ⟨r, rfl⟩
    | some b =>
      by_cases hb : b.ID < r.ID
      · exact ⟨b, by simp [hb]⟩
      · exact ⟨r, by simp [hb]⟩

theorem POST_identities_nonzero (db : Store) (body : Option PolCompassReq)
    (hid : ∀ p ∈ db.polcompasses, p.ID ≠ 0) : ∀ p ∈ (POST db body).2.polcompasses, p.ID ≠ 0 := by
  have hnew : ∀ req, ∀ p ∈ db.polcompasses ++ [surveyRow db req], p.ID ≠ 0 := by
    intro req p hp
    rcases List.mem_append.mp hp with hp | hp
    · exact hid p hp
    · rw [List.mem_singleton.mp hp]
      simp [surveyRow, nextID]
  rcases POST_cases db body with h | ⟨req, -, h | ⟨rows, -, h⟩⟩
  · rw [h]
    exact hid
  · rw [h]
    exact hnew req
  · rw [h]
    exact hnew req

theorem runPOSTs_identities_nonzero (bodies : List (Option PolCompassReq)) (db : Store)
    (hid : ∀ p ∈ db.polcompasses, p.ID ≠ 0) :
    ∀ p ∈ (runPOSTs db bodies).polcompasses, p.ID ≠ 0 := by
  induction bodies generalizing db with
  | nil => exact hid
  | cons body rest ih => exact ih _ (POST_identities_nonzero db body hid)

/-- C11: for every store and every `id` parameter that `ParseUint` accepts and
that is the identity of no survey row, `GET` answers 200 with the zero-value
survey, whose `ID` is 0; no error response is written. -/
theorem GET_missing_row_returns_zero_value (db : Store) (reqID : String) (id : Nat)
    (hparse : ParseUint reqID = some id) (hmissing : ∀ p ∈ db.polcompasses, p.ID ≠ id) :
    GET db (some reqID) = .json StatusOK zeroPolcompass ∧ zeroPolcompass.ID = 0 := by
  have hfind : findByID db.polcompasses id = none := by
    unfold findByID
    rw [List.find?_eq_none]
    intro p hp
    simpa using hmissing p hp
  simp [GET, hparse, hfind, zeroPolcompass]

theorem GET_missing_row_returns_zero_value_witness :
    ParseUint "999" = some 999 ∧ (∀ p ∈ storeAfterValidRequest.polcompasses, p.ID ≠ 999) ∧
    GET storeAfterValidRequest (some "999") = .json StatusOK zeroPolcompass ∧
    zeroPolcompass.ID = 0 :=
  ⟨by decide, by decide,
   GET_missing_row_returns_zero_value storeAfterValidRequest "999" 999 (by decide) (by decide)⟩

/-- C12: for every store whose survey identities are all non-zero (the storage
engine assigns them from 1), `First` answers 404 "PolCompass not found" when
the survey table is empty, and otherwise answers 200 with a row of the survey
table whose `Questions` are exactly the question rows carrying that row's
identity as `PolcompassID`. -/
theorem First_not_found_or_row_with_questions (db : Store)
    (hid : ∀ p ∈ db.polcompasses, p.ID ≠ 0) :
    (db.polcompasses = [] → First db = .message StatusNotFound "PolCompass not found") ∧
    (db.polcompasses ≠ [] → ∃ row ∈ db.polcompasses,
      First db = .json StatusOK
        { row with Questions :=
            db.questions.filter (fun q => decide (q.PolcompassID = row.ID)) }) := by
  constructor
  · intro h
    simp [First, h, firstByID]
  · intro h
    obtain ⟨row, hrow⟩ := firstByID_isSome db.polcompasses h
    have hmem := firstByID_mem _ _ hrow
    refine ⟨row, hmem, ?_⟩
    simp [First, hrow, preloadQuestions, hid row hmem]

theorem First_not_found_or_row_with_questions_witness :
    (∀ p ∈ storeAfterValidRequest.polcompasses, p.ID ≠ 0) ∧
    (storeAfterValidRequest.polcompasses = [] →
      First storeAfterValidRequest = .message StatusNotFound "PolCompass not found") ∧
    (storeAfterValidRequest.polcompasses ≠ [] → ∃ row ∈ storeAfterValidRequest.polcompasses,
      First storeAfterValidRequest = .json StatusOK
        { row with Questions :=
            (storeAfterValidRequest.questions.filter
              (fun q => decide (q.PolcompassID = row.ID))) }) :=
  ⟨by decide, First_not_found_or_row_with_questions storeAfterValidRequest (by decide)⟩

theorem First_empty_store : First Store.empty = .message StatusNotFound "PolCompass not found" := by
  decide

theorem First_storeAfterValidRequest :
    First storeAfterValidRequest = .json StatusOK
      ⟨1, "Economic", "Social", 2, 1, "Test Compass", "Test Description",
       storeAfterValidRequest.questions⟩ := by
  decide

/-! ## Empty field names and replay (claims C17 and C18) -/

/-- C17 fails on the code: the request of `TestPOST_MissingFieldNames`, whose
first field name is empty and whose only question affects the second field
"Social", passes the loop of lines 99-112 and is answered 200, with the survey
row and the question row stored. -/
theorem POST_missingFieldNames_answers_200 :
    POST Store.empty (some missingFieldNamesRequest) =
      (⟨StatusOK, "Added sucessfully to the database"⟩,
       { polcompasses := [⟨1, "", "Social", 0, 1, "Test Compass", "Test Description", []⟩],
         questions := [⟨1, "Test Question", "Social", 1, 1⟩] }) := by
  decide

/-- C18 as stated fails: posting the request of `TestPOST_ValidRequest` to the
empty store is answered 200, and posting it again leaves a different store (a
second survey row and three more question rows). -/
theorem POST_replay_changes_store :
    (POST Store.empty (some validRequest)).1.status = StatusOK ∧
    (POST (POST Store.empty (some validRequest)).2 (some validRequest)).2 ≠
      (POST Store.empty (some validRequest)).2 ∧
    (POST (POST Store.empty (some validRequest)).2 (some validRequest)).2.polcompasses.length = 2 ∧
    (POST (POST Store.empty (some validRequest)).2 (some validRequest)).2.questions.length = 6 := by
  decide


theorem upsertQuestions_ok {rows batch rows1 : List Question}
    (h : upsertQuestions rows batch = .ok rows1) :
    batch ≠ [] ∧ upsertRows rows batch = some rows1 := by
  unfold upsertQuestions at h
  split_ifs at h with hempty
  refine ⟨fun hb => hempty (by simp [hb]), ?_⟩
  cases hr : upsertRows rows batch with
  | none => simp [hr] at h
  | some rows2 =>
    rw [hr] at h
    simp only [Except.ok.injEq] at h
    rw [h]

theorem upsertRows_adds_row (rows0 added : List Question) (pid : Nat) (batch : List Question)
    (hbatch : ∀ q ∈ batch, q.PolcompassID = pid) (hne : batch ≠ [])
    (hfresh : ∀ r ∈ rows0, r.PolcompassID ≠ pid)
    (h : upsertRows rows0 batch = some (rows0 ++ added)) : added ≠ [] := by
  obtain ⟨pre, q, hq⟩ : ∃ pre q, batch = pre ++ q :: [] := by
    rcases List.eq_nil_or_concat batch with h0 | ⟨pre, q, h1⟩
    · exact absurd h0 hne
    · exact ⟨pre, q, by simpa using h1⟩
  rw [hq] at h hbatch
  obtain ⟨r, hr, -, -⟩ := upsertRows_latest pid pre q [] hbatch (by simp)
    (fun t => by
      rw [rowsFor_eq_nil_of_fresh _ _ _ hfresh]
      simp)
    h
  intro hadded
  rw [hadded, List.append_nil, rowsFor_eq_nil_of_fresh _ _ _ hfresh] at hr
  simp at hr

/-- C18, amended: for every store whose question rows all belong to a survey
row, and every request answered 200, posting the identical request again is
not a no-op. The second call keeps every survey row and question row the first
call left, in place and unchanged, and appends a survey row that differs from
the first call's row in its identity only; the question rows it appends all
carry the new identity, and there is at least one when the second call is
answered 200. -/
theorem POST_replay_adds_survey (db : Store) (req : PolCompassReq)
    (howned : db.QuestionsOwned) (hok : (POST db (some req)).1.status = StatusOK) :
    ∃ row1 row2 added,
      (POST db (some req)).2.polcompasses = db.polcompasses ++ [row1] ∧
      (POST (POST db (some req)).2 (some req)).2.polcompasses =
        (POST db (some req)).2.polcompasses ++ [row2] ∧
      row2.ID ≠ row1.ID ∧ row2 = { row1 with ID := row2.ID } ∧
      (POST (POST db (some req)).2 (some req)).2.questions =
        (POST db (some req)).2.questions ++ added ∧
      (∀ r ∈ added, r.PolcompassID = row2.ID) ∧
      ((POST (POST db (some req)).2 (some req)).1.status = StatusOK → added ≠ []) ∧
      (POST (POST db (some req)).2 (some req)).2 ≠ (POST db (some req)).2 := by
  obtain ⟨hk, rows, -, hpost⟩ := POST_ok_inv db req hok
  have howned1 := POST_questionsOwned db (some req) howned
  have hpc : (POST db (some req)).2.polcompasses = db.polcompasses ++ [surveyRow db req] := by
    rw [hpost]
  generalize (POST db (some req)).2 = db1 at howned1 hpc ⊢
  have hfresh := surveyRow_ID_fresh db1 req howned1
  have hne : (surveyRow db1 req).ID ≠ (surveyRow db req).ID :=
    fun h => hfresh.1 (surveyRow db req) (by simp [hpc]) h.symm
  have hstore : ∀ (s : Store), s.polcompasses = db1.polcompasses ++ [surveyRow db1 req] →
      s ≠ db1 := by
    intro s hs heq
    rw [heq] at hs
    have := congrArg List.length hs
    simp at this
  rw [POST_of_allFieldsKnown db1 req hk]
  cases hu : upsertQuestions db1.questions (questionsToSave req (surveyRow db1 req).ID) with
  | error e =>
    refine ⟨surveyRow db req, surveyRow db1 req, [], hpc, rfl, hne, rfl, by simp, by simp,
      ?_, hstore _ rfl⟩
    intro h500
    simp [StatusInternalServerError, StatusOK] at h500
  | ok rows2 =>
    obtain ⟨hbne, hrows2⟩ := upsertQuestions_ok hu
    obtain ⟨added, hadded, hpid⟩ := upsertRows_frame db1.questions [] (surveyRow db1 req).ID _
      (questionsToSave_polcompassID req _) hfresh.2 (by simp) (by simpa using hrows2)
    refine ⟨surveyRow db req, surveyRow db1 req, added, hpc, rfl, hne, rfl, hadded, hpid,
      ?_, hstore _ rfl⟩
    intro _
    exact upsertRows_adds_row db1.questions added (surveyRow db1 req).ID _
      (questionsToSave_polcompassID req _) hbne hfresh.2 (hadded ▸ hrows2)

theorem POST_replay_adds_survey_witness :
    Store.empty.QuestionsOwned ∧ (POST Store.empty (some validRequest)).1.status = StatusOK ∧
    ∃ row1 row2 added,
      (POST Store.empty (some validRequest)).2.polcompasses = Store.empty.polcompasses ++ [row1] ∧
      (POST (POST Store.empty (some validRequest)).2 (some validRequest)).2.polcompasses =
        (POST Store.empty (some validRequest)).2.polcompasses ++ [row2] ∧
      row2.ID ≠ row1.ID ∧ row2 = { row1 with ID := row2.ID } ∧
      (POST (POST Store.empty (some validRequest)).2 (some validRequest)).2.questions =
        (POST Store.empty (some validRequest)).2.questions ++ added ∧
      (∀ r ∈ added, r.PolcompassID = row2.ID) ∧
      ((POST (POST Store.empty (some validRequest)).2 (some validRequest)).1.status = StatusOK →
        added ≠ []) ∧
      (POST (POST Store.empty (some validRequest)).2 (some validRequest)).2 ≠
        (POST Store.empty (some validRequest)).2 :=
  ⟨by decide, by decide, POST_replay_adds_survey Store.empty validRequest (by decide) (by decide)⟩


/-! ## Binary64 rounding and the page count of line 73 -/

theorem roundTiesToEven_intCast (m : ℤ) : roundTiesToEven (m : ℚ) = m := by
  simp [roundTiesToEven]

theorem floor_le_roundTiesToEven (q : ℚ) : ⌊q⌋ ≤ roundTiesToEven q := by
  unfold roundTiesToEven
  split_ifs <;> omega

theorem le_roundTiesToEven_of_intCast_le (q : ℚ) (m : ℤ) (h : (m : ℚ) ≤ q) :
    m ≤ roundTiesToEven q :=
  le_trans (Int.le_floor.mpr h) (floor_le_roundTiesToEven q)

theorem roundTiesToEven_le_of_le_intCast (q : ℚ) (m : ℤ) (h : q ≤ (m : ℚ)) :
    roundTiesToEven q ≤ m := by
  have hfl : ⌊q⌋ ≤ m := Int.floor_le_floor h |>.trans (by simp)
  have hstep : 0 < q - ⌊q⌋ → ⌊q⌋ + 1 ≤ m := by
    intro hpos
    by_contra hcon
    have hm : m = ⌊q⌋ := by omega
    have : q ≤ (⌊q⌋ : ℚ) := by rw [← hm]; exact h
    linarith
  unfold roundTiesToEven
  split_ifs with h1 h2 h3
  · exact hfl
  · exact hstep (by linarith)
  · exact hfl
  · exact hstep (by linarith)

theorem sub_half_le_roundTiesToEven (q : ℚ) : q - 1 / 2 ≤ (roundTiesToEven q : ℚ) := by
  have hlt := Int.lt_floor_add_one q
  unfold roundTiesToEven
  split_ifs with h1 h2 h3
  · linarith
  · push_cast; linarith
  · linarith
  · push_cast; linarith

theorem lt_roundTiesToEven_of_add_half_lt (q : ℚ) (m : ℤ) (h : (m : ℚ) + 1 / 2 < q) :
    m < roundTiesToEven q := by
  have h1 := sub_half_le_roundTiesToEven q
  have : (m : ℚ) < (roundTiesToEven q : ℚ) := by linarith
  exact_mod_cast this


theorem log_two_bounds (q : ℚ) (hq : 0 < q) :
    (2 : ℚ) ^ Int.log 2 q ≤ q ∧ q < (2 : ℚ) ^ (Int.log 2 q + 1) := by
  have h1 : ((2 : ℕ) : ℚ) ^ Int.log 2 q ≤ q := Int.zpow_log_le_self (by norm_num) hq
  have h2 : q < ((2 : ℕ) : ℚ) ^ (Int.log 2 q + 1) := Int.lt_zpow_succ_log_self (by norm_num) q
  simp only [Nat.cast_ofNat] at h1 h2
  exact ⟨h1, h2⟩

theorem log_two_lt_of_lt (q : ℚ) (hq : 0 < q) (x : ℤ) (h : q < (2 : ℚ) ^ x) :
    Int.log 2 q < x := by
  have h1 : q < ((2 : ℕ) : ℚ) ^ x := by simpa using h
  exact (Int.lt_zpow_iff_log_lt (by norm_num) hq).mp h1

theorem le_log_two_of_le (q : ℚ) (hq : 0 < q) (x : ℤ) (h : (2 : ℚ) ^ x ≤ q) :
    x ≤ Int.log 2 q := by
  have h1 : ((2 : ℕ) : ℚ) ^ x ≤ q := by simpa using h
  exact (Int.zpow_le_iff_le_log (by norm_num) hq).mp h1

theorem intCast_lt_two_zpow (n : ℤ) (h : n < 2 ^ 53) : (n : ℚ) < (2 : ℚ) ^ (53 : ℤ) := by
  have h2 : (2 : ℚ) ^ (53 : ℤ) = ((2 ^ 53 : ℤ) : ℚ) := by norm_num
  rw [h2]
  exact_mod_cast h

theorem float64_intCast_of_lt (n : ℤ) (h0 : 0 ≤ n) (h : n < 2 ^ 53) : float64 (n : ℚ) = n := by
  rcases h0.eq_or_lt with h0 | hpos
  · subst h0
    simp [float64]
  · have hq : (0 : ℚ) < n := by exact_mod_cast hpos
    have hlo : 0 ≤ Int.log 2 (n : ℚ) := le_log_two_of_le _ hq 0 (by
      simp only [zpow_zero]
      exact_mod_cast hpos)
    have hhi : Int.log 2 (n : ℚ) < 53 := log_two_lt_of_lt _ hq 53 (intCast_lt_two_zpow n h)
    obtain ⟨T, hT⟩ : ∃ T : ℕ, Int.log 2 (n : ℚ) - 52 = -(T : ℤ) :=
      ⟨(52 - Int.log 2 (n : ℚ)).toNat, by omega⟩
    unfold float64
    rw [if_neg (not_le.mpr hq), hT, zpow_neg, zpow_natCast, div_inv_eq_mul]
    have hcast : (n : ℚ) * 2 ^ T = ((n * 2 ^ T : ℤ) : ℚ) := by push_cast; ring
    rw [hcast, roundTiesToEven_intCast]
    push_cast
    field_simp

theorem ceil_float64_div (A P : ℤ) (hA1 : 1 ≤ A) (hA : A < 2 ^ 53) (hP : 1 ≤ P) :
    ⌈float64 ((A : ℚ) / P)⌉ = ⌈(A : ℚ) / P⌉ := by
  have hAq : (0 : ℚ) < A := by exact_mod_cast (show (0 : ℤ) < A by omega)
  have hPq : (0 : ℚ) < P := by exact_mod_cast (show (0 : ℤ) < P by omega)
  have hP1 : (1 : ℚ) ≤ P := by exact_mod_cast hP
  have hq : (0 : ℚ) < (A : ℚ) / P := div_pos hAq hPq
  have hqA : (A : ℚ) / P ≤ A := div_le_self hAq.le hP1
  have hA53 : (A : ℚ) < 2 ^ (53 : ℤ) := intCast_lt_two_zpow A hA
  obtain ⟨hlo, -⟩ := log_two_bounds _ hq
  have hhi : Int.log 2 ((A : ℚ) / P) < 53 :=
    log_two_lt_of_lt _ hq 53 (lt_of_le_of_lt hqA hA53)
  obtain ⟨T, hT⟩ : ∃ T : ℕ, Int.log 2 ((A : ℚ) / P) - 52 = -(T : ℤ) :=
    ⟨(52 - Int.log 2 ((A : ℚ) / P)).toNat, by omega⟩
  have hTpos : (0 : ℚ) < 2 ^ T := by positivity
  have hPT : (P : ℚ) < 2 * 2 ^ T := by
    have he : Int.log 2 ((A : ℚ) / P) = 52 - (T : ℤ) := by omega
    rw [he] at hlo
    have h1 : (2 : ℚ) ^ (52 - (T : ℤ)) * P ≤ A := by
      rw [le_div_iff₀ hPq] at hlo
      exact hlo
    have h2 : (2 : ℚ) ^ (52 - (T : ℤ)) = 2 ^ (52 : ℕ) / 2 ^ T := by
      rw [zpow_sub₀ (by norm_num : (2 : ℚ) ≠ 0), zpow_natCast]
      norm_num
    rw [h2, div_mul_eq_mul_div, div_le_iff₀ hTpos] at h1
    have h3 : (A : ℚ) * 2 ^ T < 2 ^ (53 : ℤ) * 2 ^ T := by
      exact mul_lt_mul_of_pos_right hA53 hTpos
    have h4 : (2 : ℚ) ^ (52 : ℕ) * P < 2 ^ (53 : ℤ) * 2 ^ T := lt_of_le_of_lt h1 h3
    have h5 : (2 : ℚ) ^ (53 : ℤ) = 2 ^ (52 : ℕ) * 2 := by norm_num
    rw [h5, mul_assoc] at h4
    exact lt_of_mul_lt_mul_left h4 (by positivity)
  set k : ℤ := ⌈(A : ℚ) / P⌉ with hk
  have hk_le : (A : ℚ) / P ≤ k := Int.le_ceil _
  have hk_lt : (k : ℚ) - 1 < (A : ℚ) / P := by
    have := Int.ceil_lt_add_one ((A : ℚ) / P)
    rw [← hk] at this
    linarith
  have hfl : float64 ((A : ℚ) / P) =
      roundTiesToEven ((A : ℚ) / P * 2 ^ T) * (2 ^ T)⁻¹ := by
    unfold float64
    rw [if_neg (not_le.mpr hq), hT, zpow_neg, zpow_natCast, div_inv_eq_mul]
  rw [Int.ceil_eq_iff, hfl]
  constructor
  · have hint : (k - 1) * P + 1 ≤ A := by
      have : ((k - 1 : ℤ) : ℚ) * P < A := by
        have := (lt_div_iff₀ hPq).mp hk_lt
        push_cast
        exact this
      have : (k - 1) * P < A := by exact_mod_cast this
      omega
    have hgap : (1 : ℚ) / P ≤ (A : ℚ) / P - (k - 1) := by
      have : ((k - 1) * P + 1 : ℚ) ≤ A := by exact_mod_cast hint
      rw [div_sub' _ _ _ hPq.ne']
      exact div_le_div_of_nonneg_right (by linarith) hPq.le
    have hhalf : (1 : ℚ) / 2 < 1 / P * 2 ^ T := by
      rw [div_mul_eq_mul_div, one_mul, lt_div_iff₀ hPq]
      linarith
    have hM : (((k - 1) * 2 ^ T : ℤ) : ℚ) + 1 / 2 < (A : ℚ) / P * 2 ^ T := by
      push_cast
      have : (1 : ℚ) / P * 2 ^ T ≤ ((A : ℚ) / P - (k - 1)) * 2 ^ T :=
        mul_le_mul_of_nonneg_right hgap hTpos.le
      linarith
    have hr := lt_roundTiesToEven_of_add_half_lt _ _ hM
    have hr2 : (((k - 1) * 2 ^ T + 1 : ℤ) : ℚ) ≤
        (roundTiesToEven ((A : ℚ) / P * 2 ^ T) : ℚ) := by
      exact_mod_cast (show (k - 1) * 2 ^ T + 1 ≤ roundTiesToEven ((A : ℚ) / P * 2 ^ T) by omega)
    have hinv : (0 : ℚ) < (2 ^ T)⁻¹ := inv_pos.mpr hTpos
    have h3 := mul_le_mul_of_nonneg_right hr2 hinv.le
    push_cast at h3
    have h4 : (((k : ℚ) - 1) * 2 ^ T + 1) * (2 ^ T)⁻¹ = (k : ℚ) - 1 + (2 ^ T)⁻¹ := by
      field_simp
    rw [h4] at h3
    linarith
  · have hM : (A : ℚ) / P * 2 ^ T ≤ ((k * 2 ^ T : ℤ) : ℚ) := by
      push_cast
      exact mul_le_mul_of_nonneg_right hk_le hTpos.le
    have hr := roundTiesToEven_le_of_le_intCast _ _ hM
    have hr2 : (roundTiesToEven ((A : ℚ) / P * 2 ^ T) : ℚ) ≤ ((k * 2 ^ T : ℤ) : ℚ) := by
      exact_mod_cast hr
    have hinv : (0 : ℚ) < (2 ^ T)⁻¹ := inv_pos.mpr hTpos
    have h3 := mul_le_mul_of_nonneg_right hr2 hinv.le
    push_cast at h3
    have h4 : (k : ℚ) * 2 ^ T * (2 ^ T)⁻¹ = k := by field_simp
    rw [h4] at h3
    exact h3


theorem float64_intCast_large (p : ℤ) (hp : 2 ^ 53 ≤ p) :
    ∃ P : ℤ, float64 (p : ℚ) = P ∧ 2 ^ 53 ≤ P := by
  have hq : (0 : ℚ) < p := by
    have : (0 : ℤ) < p := lt_of_lt_of_le (by norm_num) hp
    exact_mod_cast this
  have hp53 : (2 : ℚ) ^ (53 : ℤ) ≤ p := by
    have h2 : (2 : ℚ) ^ (53 : ℤ) = ((2 ^ 53 : ℤ) : ℚ) := by norm_num
    rw [h2]
    exact_mod_cast hp
  have hlog : 53 ≤ Int.log 2 (p : ℚ) := le_log_two_of_le _ hq 53 hp53
  obtain ⟨hlo, -⟩ := log_two_bounds _ hq
  obtain ⟨S, hS⟩ : ∃ S : ℕ, Int.log 2 (p : ℚ) - 52 = (S : ℤ) :=
    ⟨(Int.log 2 (p : ℚ) - 52).toNat, by omega⟩
  have hS1 : 1 ≤ S := by omega
  have hSpos : (0 : ℚ) < 2 ^ S := by positivity
  have he : Int.log 2 (p : ℚ) = ((52 + S : ℕ) : ℤ) := by push_cast; omega
  rw [he, zpow_natCast, pow_add] at hlo
  have hround : (2 : ℤ) ^ 52 ≤ roundTiesToEven ((p : ℚ) / 2 ^ S) := by
    apply le_roundTiesToEven_of_intCast_le
    rw [le_div_iff₀ hSpos]
    push_cast
    exact hlo
  refine ⟨roundTiesToEven ((p : ℚ) / 2 ^ S) * 2 ^ S, ?_, ?_⟩
  · unfold float64
    rw [if_neg (not_le.mpr hq), hS, zpow_natCast]
    push_cast
    ring
  · have h2S : (2 : ℤ) ≤ 2 ^ S := by
      calc (2 : ℤ) = 2 ^ 1 := by norm_num
        _ ≤ 2 ^ S := pow_le_pow_right₀ (by norm_num) hS1
    calc (2 : ℤ) ^ 53 = 2 ^ 52 * 2 := by norm_num
      _ ≤ roundTiesToEven ((p : ℚ) / 2 ^ S) * 2 ^ S :=
        mul_le_mul hround h2S (by norm_num) (le_trans (by norm_num) hround)

theorem ceil_div_eq_one (n P : ℤ) (hn : 1 ≤ n) (hP : n ≤ P) : ⌈(n : ℚ) / P⌉ = 1 := by
  have hnq : (0 : ℚ) < n := by exact_mod_cast (show (0 : ℤ) < n by omega)
  have hPq : (0 : ℚ) < P := by exact_mod_cast (show (0 : ℤ) < P by omega)
  rw [Int.ceil_eq_iff]
  constructor
  · simp only [Int.cast_one, sub_self]
    exact div_pos hnq hPq
  · rw [div_le_iff₀ hPq]
    simp only [Int.cast_one, one_mul]
    exact_mod_cast hP

theorem numberOfPages_eq_ceil (n p : ℤ) (h0 : 0 ≤ n) (hn : n < 2 ^ 53) (hp : 0 < p) :
    numberOfPages n p = ⌈(n : ℚ) / p⌉ := by
  unfold numberOfPages
  rw [float64_intCast_of_lt n h0 hn]
  rcases h0.eq_or_lt with h0 | hpos
  · subst h0
    simp [float64]
  · by_cases hp53 : p < 2 ^ 53
    · rw [float64_intCast_of_lt p hp.le hp53]
      exact ceil_float64_div n p hpos hn hp
    · obtain ⟨P, hP, hP53⟩ := float64_intCast_large p (not_lt.mp hp53)
      rw [hP, ceil_float64_div n P hpos hn (le_trans (by norm_num) hP53),
        ceil_div_eq_one n P hpos (by omega), ceil_div_eq_one n p hpos (by omega)]

theorem roundTiesToEven_add_half (m : ℤ) (hm : m % 2 = 0) :
    roundTiesToEven ((m : ℚ) + 1 / 2) = m := by
  have hfl : ⌊(m : ℚ) + 1 / 2⌋ = m := by
    rw [Int.floor_eq_iff]
    constructor <;> linarith
  unfold roundTiesToEven
  rw [hfl]
  have h1 : ¬ ((m : ℚ) + 1 / 2 - m < 1 / 2) := by
    intro h
    linarith
  have h2 : ¬ ((1 : ℚ) / 2 < (m : ℚ) + 1 / 2 - m) := by
    intro h
    linarith
  rw [if_neg h1, if_neg h2, if_pos hm]

theorem log_two_eq (q : ℚ) (e : ℤ) (h1 : (2 : ℚ) ^ e ≤ q) (h2 : q < (2 : ℚ) ^ (e + 1)) :
    Int.log 2 q = e := by
  have hq : 0 < q := lt_of_lt_of_le (by positivity) h1
  have := le_log_two_of_le q hq e h1
  have := log_two_lt_of_lt q hq (e + 1) h2
  omega

theorem numberOfPages_two_pow_53_add_one :
    numberOfPages 9007199254740993 1 = 9007199254740992 := by
  have hone : float64 ((1 : ℤ) : ℚ) = ((1 : ℤ) : ℚ) :=
    float64_intCast_of_lt 1 (by norm_num) (by norm_num)
  have hbig : float64 ((9007199254740993 : ℤ) : ℚ) = 9007199254740992 := by
    have hlog : Int.log 2 (((9007199254740993 : ℤ) : ℚ)) = 53 :=
      log_two_eq _ 53 (by norm_num) (by norm_num)
    unfold float64
    rw [if_neg (by norm_num), hlog]
    have harg : ((9007199254740993 : ℤ) : ℚ) / 2 ^ ((53 : ℤ) - 52) =
        ((4503599627370496 : ℤ) : ℚ) + 1 / 2 := by norm_num
    rw [harg, roundTiesToEven_add_half _ (by norm_num)]
    norm_num
  have hres : float64 (9007199254740992 : ℚ) = 9007199254740992 := by
    have hlog : Int.log 2 ((9007199254740992 : ℚ)) = 53 :=
      log_two_eq _ 53 (by norm_num) (by norm_num)
    unfold float64
    rw [if_neg (by norm_num), hlog]
    have harg : (9007199254740992 : ℚ) / 2 ^ ((53 : ℤ) - 52) =
        ((4503599627370496 : ℤ) : ℚ) := by norm_num
    rw [harg, roundTiesToEven_intCast]
    norm_num
  unfold numberOfPages
  rw [hbig, hone]
  simp only [Int.cast_one, div_one]
  rw [hres]
  norm_num


/-! ## The directory listing -/

theorem wrapInt64_eq_self (z : Int) (h0 : 0 ≤ z) (h : z < 2 ^ 63) : wrapInt64 z = z := by
  unfold wrapInt64
  omega

theorem summaryPage_summaries (db : Store) (perPageInt pageInt : Int)
    (h0 : 0 ≤ (pageInt - 1) * perPageInt) (h : (pageInt - 1) * perPageInt < 2 ^ 63) :
    (summaryPage db perPageInt pageInt).Summaries =
      (((publishedRows db.polcompasses).drop ((pageInt - 1) * perPageInt).toNat).take
        perPageInt.toNat).map toSummary := by
  simp only [summaryPage, wrapInt64_eq_self _ h0 h]

theorem flatMap_range_take_drop {α : Type} (l : List α) (P K : Nat) :
    (List.range K).flatMap (fun i => (l.drop (i * P)).take P) = l.take (K * P) := by
  induction K with
  | zero => simp
  | succ K ih =>
    rw [List.range_succ, List.flatMap_append, ih, Nat.succ_mul, List.take_add]
    simp

theorem length_flatMap_le {α β : Type} (l : List α) (f : α → List β) (c : Nat)
    (h : ∀ x ∈ l, (f x).length ≤ c) : (l.flatMap f).length ≤ l.length * c := by
  induction l with
  | nil => simp
  | cons a rest ih =>
    have h1 := h a (List.mem_cons_self _ _)
    have h2 := ih (fun x hx => h x (List.mem_cons_of_mem _ hx))
    simp only [List.flatMap_cons, List.length_append, List.length_cons, Nat.succ_mul]
    omega

theorem numberOfPages_spec (n p : Int) (h0 : 0 ≤ n) (hn : n < 2 ^ 53) (hp : 0 < p) :
    n ≤ numberOfPages n p * p ∧ ∀ k : Int, n ≤ k * p → numberOfPages n p ≤ k := by
  rw [numberOfPages_eq_ceil n p h0 hn hp]
  have hpq : (0 : ℚ) < p := by exact_mod_cast hp
  constructor
  · have h1 := Int.le_ceil ((n : ℚ) / p)
    rw [div_le_iff₀ hpq] at h1
    exact_mod_cast h1
  · intro k hk
    rw [Int.ceil_le, div_le_iff₀ hpq]
    exact_mod_cast hk


theorem Summary_accepted (db : Store) (perPage page : Option String) (s : String)
    (n m : Int) (hs : perPage = some s) (hn : Atoi s = some n) (hn0 : 0 < n)
    (hm : Atoi (page.getD "1") = some m) (hm0 : 0 < m) :
    PolCompassController.Summary db perPage page = .json StatusOK (summaryPage db n m) := by
  subst hs
  simp [PolCompassController.Summary, hn, hm, not_le.mpr hn0, not_le.mpr hm0]

theorem Summary_rejected (db : Store) (perPage page : Option String)
    (h : ¬ ∃ s n m, perPage = some s ∧ Atoi s = some n ∧ 0 < n ∧
      Atoi (page.getD "1") = some m ∧ 0 < m) :
    ∃ msg, PolCompassController.Summary db perPage page = .message StatusBadRequest msg := by
  cases perPage with
  | none => exact ⟨_, rfl⟩
  | some s =>
    cases hn : Atoi s with
    | none => exact ⟨"perPage must be a number", by simp [PolCompassController.Summary, hn]⟩
    | some n =>
      by_cases hn0 : n ≤ 0
      · exact ⟨"perPage must be greater than 0",
          by simp [PolCompassController.Summary, hn, hn0]⟩
      · cases hm : Atoi (page.getD "1") with
        | none =>
          exact ⟨"page must be a number", by simp [PolCompassController.Summary, hn, hn0, hm]⟩
        | some m =>
          by_cases hm0 : m ≤ 0
          · exact ⟨"page must be greater than 0",
              by simp [PolCompassController.Summary, hn, hn0, hm, hm0]⟩
          · exact absurd ⟨s, n, m, rfl, hn, not_le.mp hn0, hm, not_le.mp hm0⟩ h

theorem Summary_json_inv (db : Store) (perPage page : Option String) (status : Nat)
    (r : SummaryResponse) (h : PolCompassController.Summary db perPage page = .json status r) :
    status = StatusOK ∧ ∃ s n m, perPage = some s ∧ Atoi s = some n ∧ 0 < n ∧
      Atoi (page.getD "1") = some m ∧ 0 < m ∧ r = summaryPage db n m := by
  by_cases hacc : ∃ s n m, perPage = some s ∧ Atoi s = some n ∧ 0 < n ∧
      Atoi (page.getD "1") = some m ∧ 0 < m
  · obtain ⟨s, n, m, hs, hn, hn0, hm, hm0⟩ := hacc
    rw [Summary_accepted db perPage page s n m hs hn hn0 hm hm0] at h
    simp only [Reply.json.injEq] at h
    exact ⟨h.1.symm, s, n, m, hs, hn, hn0, hm, hm0, h.2.symm⟩
  · obtain ⟨msg, hmsg⟩ := Summary_rejected db perPage page hacc
    rw [hmsg] at h
    cases h

/-! ## The directory (claims C13 to C16 and C19) -/

/-- C13 as stated fails: for a published count of `2^53 + 1` and `perPage` 1,
line 73 yields `2^53` pages, one fewer than the count, because
`float64(num_summaries)` rounds the count to `2^53`. -/
theorem numberOfPages_below_ceiling :
    numberOfPages 9007199254740993 1 = 9007199254740992 ∧
    ¬ ((9007199254740993 : Int) ≤ numberOfPages 9007199254740993 1 * 1) := by
  rw [numberOfPages_two_pow_53_add_one]
  exact ⟨rfl, by norm_num⟩

/-- C13, amended: for every published count `n` with `0 ≤ n < 2^53` and every
`perPage > 0`, the page count of line 73 is the ceiling of `n / perPage`: it is
the least integer `k` with `k * perPage ≥ n`. (`summaryPage` reports
`numberOfPages` of the number of published rows.) -/
theorem numberOfPages_is_ceiling (n perPage : Int) (h0 : 0 ≤ n) (hn : n < 2 ^ 53)
    (hp : 0 < perPage) :
    numberOfPages n perPage = ⌈(n : ℚ) / perPage⌉ ∧
    n ≤ numberOfPages n perPage * perPage ∧
    (∀ k : Int, n ≤ k * perPage → numberOfPages n perPage ≤ k) ∧
    (∀ (db : Store) (pageInt : Int), ((publishedRows db.polcompasses).length : Int) = n →
      (summaryPage db perPage pageInt).NumberOfPages = numberOfPages n perPage) := by
  refine ⟨numberOfPages_eq_ceil n perPage h0 hn hp, (numberOfPages_spec n perPage h0 hn hp).1,
    (numberOfPages_spec n perPage h0 hn hp).2, ?_⟩
  intro db pageInt hlen
  simp only [summaryPage, hlen]

theorem numberOfPages_is_ceiling_witness :
    (0 : Int) ≤ 7 ∧ (7 : Int) < 2 ^ 53 ∧ (0 : Int) < 3 ∧
    numberOfPages 7 3 = 3 ∧ numberOfPages 0 3 = 0 := by
  refine ⟨by norm_num, by norm_num, by norm_num, ?_⟩
  have h7 := numberOfPages_is_ceiling 7 3 (by norm_num) (by norm_num) (by norm_num)
  have h0 := numberOfPages_is_ceiling 0 3 (by norm_num) (by norm_num) (by norm_num)
  have a1 := h7.2.1
  have a2 := h7.2.2.1 3 (by norm_num)
  have b1 := h0.2.1
  have b2 := h0.2.2.1 0 (by norm_num)
  constructor <;> omega


/-- C14 fails on the code: with one published survey, `perPage=4` and
`page=4611686018427387905` (that is `2^62 + 1`), the offset
`(pageInt - 1) * perPageInt` is `2^64`, which is 0 in `int`, so the handler
lists the first page, one item, where the claim gives
`min(4, max(0, 1 - 2^64)) = 0` items for this page beyond the last. -/
theorem Summary_offset_overflow_lists_first_page :
    PolCompassController.Summary storeAfterValidRequest (some "4")
        (some "4611686018427387905") =
      .json StatusOK ⟨numberOfPages 1 4, [⟨"Test Compass", "Test Description", 1⟩]⟩ ∧
    min (4 : Int) (max 0 (1 - (4611686018427387905 - 1) * 4)) = 0 := by
  constructor
  · rfl
  · decide

theorem Summary_seven_published_page_three :
    PolCompassController.Summary storeWithSevenPublished (some "3") (some "3") =
      .json StatusOK ⟨numberOfPages 7 3, [⟨"Compass 8", "Eighth", 8⟩]⟩ := rfl

theorem Summary_seven_published_page_four :
    PolCompassController.Summary storeWithSevenPublished (some "3") (some "4") =
      .json StatusOK ⟨numberOfPages 7 3, []⟩ := rfl

theorem Summary_page_defaults_to_one :
    PolCompassController.Summary storeWithSevenPublished (some "3") none =
      .json StatusOK ⟨numberOfPages 7 3,
        [⟨"Compass 1", "First", 1⟩, ⟨"Compass 2", "Second", 2⟩, ⟨"Compass 4", "Fourth", 4⟩]⟩ := rfl

/-- C15: whenever the handler answers with a listing, every summary row is the
`id`, `name` and `description` of a survey row whose name and description are
both non-empty, the page count is computed from exactly the number of survey
rows with both fields non-empty, and the answer is the same for any store
whose survey rows have the same identities, names and descriptions in the same
order (axis names, counts and questions play no part). -/
theorem Summary_lists_published_only (db : Store) (perPage page : Option String)
    (status : Nat) (r : SummaryResponse)
    (h : PolCompassController.Summary db perPage page = .json status r) :
    (∀ s ∈ r.Summaries, ∃ p ∈ db.polcompasses, p.Name ≠ "" ∧ p.Description ≠ "" ∧
      s = ⟨p.Name, p.Description, p.ID⟩) ∧
    (∃ (s : String) (perPageInt : Int), perPage = some s ∧ Atoi s = some perPageInt ∧
      r.NumberOfPages = numberOfPages
        (db.polcompasses.countP
          (fun p => decide (p.Name ≠ "") && decide (p.Description ≠ ""))) perPageInt) ∧
    (∀ db2 : Store,
      db2.polcompasses.map (fun p => (p.ID, p.Name, p.Description)) =
        db.polcompasses.map (fun p => (p.ID, p.Name, p.Description)) →
      PolCompassController.Summary db2 perPage page = .json status r) := by
  obtain ⟨hst, s, n, m, hs, hn, hn0, hm, hm0, hr⟩ := Summary_json_inv db perPage page status r h
  refine ⟨?_, ⟨s, n, hs, hn, ?_⟩, ?_⟩
  · intro x hx
    rw [hr] at hx
    simp only [summaryPage, List.mem_map] at hx
    obtain ⟨p, hp, rfl⟩ := hx
    have hp2 := List.mem_of_mem_drop (List.mem_of_mem_take hp)
    have hp3 := List.mem_filter.mp hp2
    have hp4 := hp3.2
    simp only [Bool.and_eq_true, decide_eq_true_eq] at hp4
    exact ⟨p, hp3.1, hp4.1, hp4.2, rfl⟩
  · rw [hr]
    simp only [summaryPage, publishedRows, List.countP_eq_length_filter]
  · intro db2 hmap
    have hpub : (publishedRows db2.polcompasses).map toSummary =
        (publishedRows db.polcompasses).map toSummary := by
      have key : ∀ rows : List Polcompass, (publishedRows rows).map toSummary =
          ((rows.map (fun p => (p.ID, p.Name, p.Description))).filter
            (fun t => decide (t.2.1 ≠ "") && decide (t.2.2 ≠ ""))).map
            (fun t => (⟨t.2.1, t.2.2, t.1⟩ : Summary)) := by
        intro rows
        rw [List.filter_map, List.map_map]
        rfl
      rw [key, key, hmap]
    have hsum : summaryPage db2 n m = summaryPage db n m := by
      have hlen := congrArg List.length hpub
      simp only [List.length_map] at hlen
      simp only [summaryPage, hlen, List.map_take, List.map_drop, hpub]
    rw [Summary_accepted db2 perPage page s n m hs hn hn0 hm hm0, hsum, hst, hr]

/-- C16: the handler answers with a listing (status 200) exactly when `perPage`
is present and `Atoi` reads it as an integer greater than 0 and `page`, taken
as "1" when absent, is read by `Atoi` as an integer greater than 0; in every
other case it answers 400 with a message and no listing. -/
theorem Summary_accepts_iff (db : Store) (perPage page : Option String) :
    ((∃ r, PolCompassController.Summary db perPage page = .json StatusOK r) ↔
      ∃ s n m, perPage = some s ∧ Atoi s = some n ∧ 0 < n ∧
        Atoi (page.getD "1") = some m ∧ 0 < m) ∧
    ((¬ ∃ s n m, perPage = some s ∧ Atoi s = some n ∧ 0 < n ∧
        Atoi (page.getD "1") = some m ∧ 0 < m) →
      ∃ msg, PolCompassController.Summary db perPage page = .message StatusBadRequest msg) := by
  refine ⟨⟨?_, ?_⟩, Summary_rejected db perPage page⟩
  · rintro ⟨r, hr⟩
    obtain ⟨-, s, n, m, hs, hn, hn0, hm, hm0, -⟩ := Summary_json_inv db perPage page _ r hr
    exact ⟨s, n, m, hs, hn, hn0, hm, hm0⟩
  · rintro ⟨s, n, m, hs, hn, hn0, hm, hm0⟩
    exact ⟨_, Summary_accepted db perPage page s n m hs hn hn0 hm hm0⟩


theorem Summary_lists_published_only_witness :
    PolCompassController.Summary storeWithSevenPublished (some "3") (some "3") =
      .json StatusOK ⟨numberOfPages 7 3, [⟨"Compass 8", "Eighth", 8⟩]⟩ ∧
    (∀ s ∈ [(⟨"Compass 8", "Eighth", 8⟩ : Summary)],
      ∃ p ∈ storeWithSevenPublished.polcompasses, p.Name ≠ "" ∧ p.Description ≠ "" ∧
        s = ⟨p.Name, p.Description, p.ID⟩) :=
  ⟨rfl, (Summary_lists_published_only storeWithSevenPublished (some "3") (some "3") StatusOK
    ⟨numberOfPages 7 3, [⟨"Compass 8", "Eighth", 8⟩]⟩ rfl).1⟩

theorem flatMap_congr_mem {α β : Type} (l : List α) (f g : α → List β)
    (h : ∀ x ∈ l, f x = g x) : l.flatMap f = l.flatMap g := by
  induction l with
  | nil => rfl
  | cons a rest ih =>
    simp only [List.flatMap_cons]
    rw [h a (List.mem_cons_self _ _), ih (fun x hx => h x (List.mem_cons_of_mem _ hx))]

theorem summaryPage_length_le (db : Store) (perPageInt pageInt : Int) :
    (summaryPage db perPageInt pageInt).Summaries.length ≤ perPageInt.toNat := by
  simp only [summaryPage, List.length_map, List.length_take]
  exact Nat.min_le_left _ _

theorem summaryPage_within (db : Store) (perPageInt pageInt : Int) (hp : 1 ≤ perPageInt)
    (hn : ((publishedRows db.polcompasses).length : Int) < 2 ^ 53)
    (h1 : 1 ≤ pageInt) (hk : pageInt ≤ (summaryPage db perPageInt 1).NumberOfPages) :
    (pageInt - 1) * perPageInt < ((publishedRows db.polcompasses).length : Int) ∧
    (summaryPage db perPageInt pageInt).Summaries =
      (((publishedRows db.polcompasses).map toSummary).drop
        ((pageInt - 1).toNat * perPageInt.toNat)).take perPageInt.toNat := by
  have hspec := numberOfPages_spec ((publishedRows db.polcompasses).length : Int) perPageInt
    (Int.natCast_nonneg _) hn (by omega)
  have hk2 : pageInt ≤ numberOfPages ((publishedRows db.polcompasses).length : Int) perPageInt :=
    hk
  have hlt : (pageInt - 1) * perPageInt < ((publishedRows db.polcompasses).length : Int) := by
    by_contra hcon
    have := hspec.2 (pageInt - 1) (not_lt.mp hcon)
    omega
  have h0 : 0 ≤ (pageInt - 1) * perPageInt := mul_nonneg (by omega) (by omega)
  refine ⟨hlt, ?_⟩
  rw [summaryPage_summaries db perPageInt pageInt h0 (by omega), List.map_take, List.map_drop]
  have htoNat : ((pageInt - 1) * perPageInt).toNat = (pageInt - 1).toNat * perPageInt.toNat := by
    have ha : pageInt - 1 = ((pageInt - 1).toNat : Int) := (Int.toNat_of_nonneg (by omega)).symm
    have hb : perPageInt = (perPageInt.toNat : Int) := (Int.toNat_of_nonneg (by omega)).symm
    rw [ha, hb, ← Nat.cast_mul, Int.toNat_natCast, Int.toNat_natCast, Int.toNat_natCast]
  rw [htoNat]

theorem length_publishedRows_generated (n : Nat) :
    (publishedRows ((List.range n).map generatedSurvey)).length = n := by
  have hpub : ∀ l : List Nat, publishedRows (l.map generatedSurvey) = l.map generatedSurvey := by
    intro l
    unfold publishedRows
    rw [List.filter_eq_self]
    intro a ha
    obtain ⟨i, -, rfl⟩ := List.mem_map.mp ha
    rfl
  rw [hpub, List.length_map, List.length_range]

theorem storeAboveTwoPow53_polcompasses :
    storeAboveTwoPow53.polcompasses = (List.range 9007199254740993).map generatedSurvey := by
  simp only [storeAboveTwoPow53]

/-- C19 as stated fails: for the store with `2^53 + 1` published surveys and
`perPage` 1 the reported page count is `2^53`, so the pages 1 to
`NumberOfPages` together hold at most `2^53` items and do not list every
published survey. -/
theorem allPages_misses_a_survey :
    (summaryPage storeAboveTwoPow53 1 1).NumberOfPages = 9007199254740992 ∧
    ((publishedRows storeAboveTwoPow53.polcompasses).map toSummary).length = 9007199254740993 ∧
    (allPages storeAboveTwoPow53 1).length ≤ 9007199254740992 ∧
    allPages storeAboveTwoPow53 1 ≠ (publishedRows storeAboveTwoPow53.polcompasses).map toSummary := by
  have hlen : (publishedRows storeAboveTwoPow53.polcompasses).length = 9007199254740993 := by
    rw [storeAboveTwoPow53_polcompasses]
    exact length_publishedRows_generated 9007199254740993
  have hpages : (summaryPage storeAboveTwoPow53 1 1).NumberOfPages = 9007199254740992 := by
    show numberOfPages ((publishedRows storeAboveTwoPow53.polcompasses).length : Int) 1 = _
    rw [hlen]
    exact numberOfPages_two_pow_53_add_one
  have hall : (allPages storeAboveTwoPow53 1).length ≤ 9007199254740992 := by
    unfold allPages
    rw [hpages]
    have := length_flatMap_le (List.range (9007199254740992 : Int).toNat)
      (fun i => (summaryPage storeAboveTwoPow53 1 ((i : Int) + 1)).Summaries) 1
      (fun i _ => summaryPage_length_le storeAboveTwoPow53 1 _)
    rw [List.length_range] at this
    have h2 : (9007199254740992 : Int).toNat = 9007199254740992 := rfl
    rw [h2] at this ⊢
    omega
  refine ⟨hpages, by rw [List.length_map, hlen], hall, ?_⟩
  intro heq
  have := congrArg List.length heq
  rw [List.length_map, hlen] at this
  omega

/-- C19, amended: for every store with fewer than `2^53` published surveys and
every `perPage ≥ 1`, the item lists of pages 1, 2, ..., `NumberOfPages`, one
after the other, are exactly the published surveys in table order, each once,
and every page from 1 to `NumberOfPages` is non-empty. -/
theorem allPages_eq_published (db : Store) (perPageInt : Int) (hp : 1 ≤ perPageInt)
    (hn : ((publishedRows db.polcompasses).length : Int) < 2 ^ 53) :
    allPages db perPageInt = (publishedRows db.polcompasses).map toSummary ∧
    ∀ pageInt : Int, 1 ≤ pageInt → pageInt ≤ (summaryPage db perPageInt 1).NumberOfPages →
      (summaryPage db perPageInt pageInt).Summaries ≠ [] := by
  have hspec := numberOfPages_spec ((publishedRows db.polcompasses).length : Int) perPageInt
    (Int.natCast_nonneg _) hn (by omega)
  have hP : perPageInt = (perPageInt.toNat : Int) := (Int.toNat_of_nonneg (by omega)).symm
  have hP1 : 1 ≤ perPageInt.toNat := by omega
  constructor
  · unfold allPages
    have hpage : ∀ i ∈ List.range (summaryPage db perPageInt 1).NumberOfPages.toNat,
        (summaryPage db perPageInt ((i : Int) + 1)).Summaries =
          (((publishedRows db.polcompasses).map toSummary).drop (i * perPageInt.toNat)).take
            perPageInt.toNat := by
      intro i hi
      have hi2 := List.mem_range.mp hi
      have h := (summaryPage_within db perPageInt ((i : Int) + 1) hp hn (by omega) (by omega)).2
      rw [h]
      have : ((i : Int) + 1 - 1).toNat = i := by simp
      rw [this]
    rw [flatMap_congr_mem _ _ _ hpage, flatMap_range_take_drop]
    apply List.take_of_length_le
    rw [List.length_map]
    have hk : (summaryPage db perPageInt 1).NumberOfPages =
        numberOfPages ((publishedRows db.polcompasses).length : Int) perPageInt := rfl
    rw [hk]
    have h1 := hspec.1
    have hk0 : 0 ≤ numberOfPages ((publishedRows db.polcompasses).length : Int) perPageInt := by
      by_contra hneg
      have : numberOfPages ((publishedRows db.polcompasses).length : Int) perPageInt *
          perPageInt < 0 := mul_neg_of_neg_of_pos (by omega) (by omega)
      omega
    have hkN := Int.toNat_of_nonneg hk0
    have : ((publishedRows db.polcompasses).length : Int) ≤
        (((numberOfPages ((publishedRows db.polcompasses).length : Int) perPageInt).toNat *
          perPageInt.toNat : Nat) : Int) := by
      rw [Nat.cast_mul, hkN, ← hP]
      exact h1
    exact_mod_cast this
  · intro pageInt h1 hk
    obtain ⟨hlt, hitems⟩ := summaryPage_within db perPageInt pageInt hp hn h1 hk
    rw [hitems]
    intro hnil
    have hlen := congrArg List.length hnil
    rw [List.length_take, List.length_drop, List.length_map, List.length_nil] at hlen
    have hoff : (((pageInt - 1).toNat * perPageInt.toNat : Nat) : Int) <
        ((publishedRows db.polcompasses).length : Int) := by
      rw [Nat.cast_mul, Int.toNat_of_nonneg (by omega : 0 ≤ pageInt - 1), ← hP]
      exact hlt
    have hoff2 : (pageInt - 1).toNat * perPageInt.toNat < (publishedRows db.polcompasses).length := by
      exact_mod_cast hoff
    omega

theorem allPages_eq_published_witness :
    (1 : Int) ≤ 3 ∧ ((publishedRows storeWithSevenPublished.polcompasses).length : Int) < 2 ^ 53 ∧
    allPages storeWithSevenPublished 3 =
      (publishedRows storeWithSevenPublished.polcompasses).map toSummary ∧
    ∀ pageInt : Int, 1 ≤ pageInt →
      pageInt ≤ (summaryPage storeWithSevenPublished 3 1).NumberOfPages →
      (summaryPage storeWithSevenPublished 3 pageInt).Summaries ≠ [] :=
  ⟨by decide, by decide, allPages_eq_published storeWithSevenPublished 3 (by decide) (by decide)⟩

end Models
